import Mathlib

/-!
Shallow embedding of the ai-chat-platform backend
(src/backend/src/api/routes/chat.py, src/backend/src/agent/client.py,
src/backend/src/services/sessions.py) and proofs about the claims on the
session store and the event-translator state machine.

Python dictionaries with JSON-like values are embedded as insertion-ordered
association lists over a small JSON value type; Python truthiness of the
optional string fields is embedded explicitly.
-/

namespace AiChat

/-- JSON-like values carried in tool inputs and questions payloads. -/
inductive JsonV where
  | str (s : String)
  | num (q : Rat)
  | bool (b : Bool)
  | null
  | arr (xs : List JsonV)
  | obj (fields : List (String × JsonV))

/-- Python truthiness of an optional string: `None` and the empty string are falsy. -/
def truthyS : Option String → Bool
  | none => false
  | some s => s ≠ ""

/-- Python truthiness of a JSON value (used for `event.questions or []`). -/
def JsonV.truthy : JsonV → Bool
  | .str s => s ≠ ""
  | .num q => q ≠ 0
  | .bool b => b
  | .null => false
  | .arr [] => false
  | .arr (_ :: _) => true
  | .obj [] => false
  | .obj (_ :: _) => true

/-- Insert a key into a Python-dict association list: replace the value in
place when the key exists, append otherwise (dict insertion-order semantics). -/
def dictInsert (d : List (String × JsonV)) (k : String) (v : JsonV) :
    List (String × JsonV) :=
  match d with
  | [] => [(k, v)]
  | (k', v') :: rest =>
      if k' = k then (k, v) :: rest else (k', v') :: dictInsert rest k v

/-- `dict.get(k)`: first binding of `k`, if any. -/
def dictGet (d : List (String × JsonV)) (k : String) : Option JsonV :=
  match d with
  | [] => none
  | (k', v) :: rest => if k' = k then some v else dictGet rest k

/-- Python `(left_literal) ** right` dict merge: fold the right dict's entries
into the left, overriding in place. -/
def dictMerge (base : List (String × JsonV)) (extra : List (String × JsonV)) :
    List (String × JsonV) :=
  extra.foldl (fun acc kv => dictInsert acc kv.1 kv.2) base

/-- `StreamEvent` dataclass from src/backend/src/agent/client.py. -/
structure StreamEvent where
  type : String
  text : Option String := none
  tool_name : Option String := none
  tool_id : Option String := none
  tool_input : Option (List (String × JsonV)) := none
  tool_result : Option String := none
  session_id : Option String := none
  cost : Option Rat := none
  is_error : Bool := false
  questions : Option JsonV := none

/-- `VercelStreamState` from src/backend/src/api/routes/chat.py. The `counter`
field models the fresh-id draw of `uuid.uuid4().hex[:8]` by a deterministic
supply; nothing else distinguishes one fresh id from another. -/
structure VercelStreamState where
  text_id : Option String := none
  text_started : Bool := false
  session_id : Option String := none
  counter : Nat := 0

/-- `VercelStreamState.generate_text_id`: draw a fresh text block id and store it. -/
def VercelStreamState.generate_text_id (st : VercelStreamState) :
    String × VercelStreamState :=
  let tid := "text-" ++ toString st.counter
  (tid, { st with text_id := some tid, counter := st.counter + 1 })

/-- One wire frame of the typed-event (Vercel UI message stream) encoding. -/
inductive Frame where
  | textStart (id : String)
  | textDelta (id : String) (delta : String)
  | textEnd (id : String)
  | toolInputStart (toolCallId : Option String) (toolName : Option String)
  | toolInputAvailable (toolCallId : Option String) (toolName : Option String)
      (input : List (String × JsonV))
  | toolOutputAvailable (toolCallId : Option String) (result : Option String)
      (isError : Bool)
  | finish (session_id : Option String) (cost : Option Rat)
  | error (errorText : String)

/-- Close an open text block if one is open (`if state.text_started and state.text_id`). -/
def closeOpenText (st : VercelStreamState) : List Frame × VercelStreamState :=
  if st.text_started && truthyS st.text_id then
    ([Frame.textEnd (st.text_id.getD "")], { st with text_started := false })
  else
    ([], st)

/-- The session-tracking step at the top of `convert_to_vercel_events`
(`if event.session_id: state.session_id = event.session_id`). -/
def captureSession (event : StreamEvent) (state : VercelStreamState) :
    VercelStreamState :=
  if truthyS event.session_id then
    { state with session_id := event.session_id } else state

/-- `convert_to_vercel_events` from src/backend/src/api/routes/chat.py:
translate one internal `StreamEvent` into typed-event frames, threading the
mutable `VercelStreamState` explicitly. -/
def convert_to_vercel_events (event : StreamEvent) (state : VercelStreamState) :
    List Frame × VercelStreamState :=
  let state := captureSession event state
  if event.type = "text" then
    let (startFrames, state) :=
      if !state.text_started then
        let (tid, state') := state.generate_text_id
        ([Frame.textStart tid], { state' with text_started := true })
      else ([], state)
    let deltaFrames :=
      if truthyS event.text && truthyS state.text_id then
        [Frame.textDelta (state.text_id.getD "") (event.text.getD "")]
      else []
    (startFrames ++ deltaFrames, state)
  else if event.type = "tool_start" then
    let (closeFrames, state) := closeOpenText state
    (closeFrames ++
      [Frame.toolInputStart event.tool_id event.tool_name,
       Frame.toolInputAvailable event.tool_id event.tool_name
         (event.tool_input.getD [])], state)
  else if event.type = "user_input_required" then
    let (closeFrames, state) := closeOpenText state
    let qs := match event.questions with
      | some v => if v.truthy then v else JsonV.arr []
      | none => JsonV.arr []
    (closeFrames ++
      [Frame.toolInputStart event.tool_id (some "AskUserQuestion"),
       Frame.toolInputAvailable event.tool_id (some "AskUserQuestion")
         (dictMerge [("questions", qs)] (event.tool_input.getD []))], state)
  else if event.type = "tool_result" then
    ([Frame.toolOutputAvailable event.tool_id event.tool_result event.is_error],
     state)
  else if event.type = "done" then
    let (closeFrames, state) := closeOpenText state
    (closeFrames ++ [Frame.finish event.session_id event.cost], state)
  else if event.type = "error" then
    let (closeFrames, state) := closeOpenText state
    (closeFrames ++
      [Frame.error (if truthyS event.text then event.text.getD "" else "Unknown error")],
     state)
  else
    ([], state)

/-- Drive the translator over a list of events, concatenating the frames. -/
def convertList (state : VercelStreamState) :
    List StreamEvent → List Frame × VercelStreamState
  | [] => ([], state)
  | e :: rest =>
      let (fs, state') := convert_to_vercel_events e state
      let (fs', state'') := convertList state' rest
      (fs ++ fs', state'')

/-- `stream_agent_response_vercel` from chat.py: drive the translator over the
events produced by the agent; when the upstream generator raises (`exc`), a
synthetic error `StreamEvent` is translated through the same state. The
trailing literal `data: [DONE]` sentinel carries no frame and is omitted. -/
def streamVercelFrames (events : List StreamEvent) (exc : Option String) :
    List Frame × VercelStreamState :=
  let (fs, st) := convertList {} events
  match exc with
  | none => (fs, st)
  | some msg =>
      let (fs', st') := convert_to_vercel_events
        { type := "error", text := some msg, is_error := true } st
      (fs ++ fs', st')

/-- Frame classifiers used for counting. -/
def Frame.isTextStart : Frame → Bool
  | .textStart _ => true
  | _ => false

def Frame.isTextEnd : Frame → Bool
  | .textEnd _ => true
  | _ => false

def Frame.isTextDelta : Frame → Bool
  | .textDelta _ _ => true
  | _ => false

def Frame.isToolOutputFor (c : String) : Frame → Bool
  | .toolOutputAvailable id _ _ => id = some c
  | _ => false

def Frame.isToolInputStartFor (c : String) : Frame → Bool
  | .toolInputStart id _ => id = some c
  | _ => false

def Frame.isToolInputAvailableFor (c : String) : Frame → Bool
  | .toolInputAvailable id _ _ => id = some c
  | _ => false

/-- Scan a frame list maintaining the currently open text block id:
a start frame is legal only when no block is open, an end frame only closes
the block it names, and a delta frame must name the currently open block.
Returns `none` on any violation, otherwise the open block after the scan. -/
def scanBlocks : Option String → List Frame → Option (Option String)
  | o, [] => some o
  | o, f :: rest =>
      match f, o with
      | .textStart tid, none => scanBlocks (some tid) rest
      | .textStart _, some _ => none
      | .textEnd tid, some tid' => if tid = tid' then scanBlocks none rest else none
      | .textEnd _, none => none
      | .textDelta tid _, some tid' => if tid = tid' then scanBlocks o rest else none
      | .textDelta _ _, none => none
      | _, _ => scanBlocks o rest

/-- The block the translator currently holds open, as seen on the wire. -/
def openBlock (st : VercelStreamState) : Option String :=
  if st.text_started && truthyS st.text_id then st.text_id else none

/-- State well-formedness maintained by the translator: whenever a text block
is open, the stored id is a nonempty string. -/
def stateOk (st : VercelStreamState) : Prop :=
  st.text_started = true → truthyS st.text_id = true

/-- Number of open blocks an `Option` id represents. -/
def openN : Option String → Nat
  | none => 0
  | some _ => 1

lemma captureSession_text_id (e : StreamEvent) (st : VercelStreamState) :
    (captureSession e st).text_id = st.text_id := by
  unfold captureSession; split <;> rfl

lemma captureSession_text_started (e : StreamEvent) (st : VercelStreamState) :
    (captureSession e st).text_started = st.text_started := by
  unfold captureSession; split <;> rfl

lemma captureSession_counter (e : StreamEvent) (st : VercelStreamState) :
    (captureSession e st).counter = st.counter := by
  unfold captureSession; split <;> rfl

lemma openBlock_captureSession (e : StreamEvent) (st : VercelStreamState) :
    openBlock (captureSession e st) = openBlock st := by
  unfold openBlock
  rw [captureSession_text_id, captureSession_text_started]

lemma stateOk_captureSession (e : StreamEvent) (st : VercelStreamState)
    (h : stateOk st) : stateOk (captureSession e st) := by
  unfold stateOk at *
  rw [captureSession_text_id, captureSession_text_started]
  exact h

lemma truthyS_generated (n : Nat) :
    truthyS (some ("text-" ++ toString n)) = true := by
  simp only [truthyS, decide_eq_true_eq]
  intro h
  have hlen := congrArg String.length h
  rw [String.length_append] at hlen
  have h5 : "text-".length = 5 := rfl
  have h0 : "".length = 0 := rfl
  omega

lemma openN_none : openN none = 0 := rfl

lemma openN_some (s : String) : openN (some s) = 1 := rfl

lemma scanBlocks_append (xs : List Frame) :
    ∀ (ys : List Frame) (o : Option String),
      scanBlocks o (xs ++ ys) =
        (scanBlocks o xs).bind fun o' => scanBlocks o' ys := by
  induction xs with
  | nil => intro ys o; simp [scanBlocks]
  | cons f xs ih =>
      intro ys o
      cases f with
      | textStart tid =>
          cases o with
          | none => simpa [scanBlocks] using ih ys (some tid)
          | some u => simp [scanBlocks]
      | textEnd tid =>
          cases o with
          | none => simp [scanBlocks]
          | some u =>
              simp only [List.cons_append, scanBlocks]
              by_cases h : tid = u
              · simp [h, ih]
              · simp [h]
      | textDelta tid d =>
          cases o with
          | none => simp [scanBlocks]
          | some u =>
              simp only [List.cons_append, scanBlocks]
              by_cases h : tid = u
              · simp [h, ih]
              · simp [h]
      | toolInputStart a b => cases o <;> simp [scanBlocks, ih]
      | toolInputAvailable a b c => cases o <;> simp [scanBlocks, ih]
      | toolOutputAvailable a b c => cases o <;> simp [scanBlocks, ih]
      | finish a b => cases o <;> simp [scanBlocks, ih]
      | error a => cases o <;> simp [scanBlocks, ih]

lemma scanBlocks_count (fs : List Frame) :
    ∀ (o o' : Option String), scanBlocks o fs = some o' →
      fs.countP Frame.isTextStart + openN o = fs.countP Frame.isTextEnd + openN o' := by
  induction fs with
  | nil =>
      intro o o' h
      simp [scanBlocks] at h
      subst h; rfl
  | cons f fs ih =>
      intro o o' h
      cases f with
      | textStart tid =>
          cases o with
          | none =>
              simp only [scanBlocks] at h
              have h2 := ih _ _ h
              simp [List.countP_cons, Frame.isTextStart, Frame.isTextEnd,
                openN_none, openN_some] at h2 ⊢
              omega
          | some u => simp [scanBlocks] at h
      | textEnd tid =>
          cases o with
          | none => simp [scanBlocks] at h
          | some u =>
              simp only [scanBlocks] at h
              by_cases he : tid = u
              · rw [if_pos he] at h
                have h2 := ih _ _ h
                simp [List.countP_cons, Frame.isTextStart, Frame.isTextEnd,
                  openN_none, openN_some] at h2 ⊢
                omega
              · rw [if_neg he] at h; exact absurd h (by simp)
      | textDelta tid d =>
          cases o with
          | none => simp [scanBlocks] at h
          | some u =>
              simp only [scanBlocks] at h
              by_cases he : tid = u
              · rw [if_pos he] at h
                have h2 := ih _ _ h
                simp [List.countP_cons, Frame.isTextStart, Frame.isTextEnd,
                  openN_none, openN_some] at h2 ⊢
                omega
              · rw [if_neg he] at h; exact absurd h (by simp)
      | toolInputStart a b =>
          simp only [scanBlocks] at h
          have h2 := ih _ _ h
          simp [List.countP_cons, Frame.isTextStart, Frame.isTextEnd,
            openN_none, openN_some] at h2 ⊢
          omega
      | toolInputAvailable a b c =>
          simp only [scanBlocks] at h
          have h2 := ih _ _ h
          simp [List.countP_cons, Frame.isTextStart, Frame.isTextEnd,
            openN_none, openN_some] at h2 ⊢
          omega
      | toolOutputAvailable a b c =>
          simp only [scanBlocks] at h
          have h2 := ih _ _ h
          simp [List.countP_cons, Frame.isTextStart, Frame.isTextEnd,
            openN_none, openN_some] at h2 ⊢
          omega
      | finish a b =>
          simp only [scanBlocks] at h
          have h2 := ih _ _ h
          simp [List.countP_cons, Frame.isTextStart, Frame.isTextEnd,
            openN_none, openN_some] at h2 ⊢
          omega
      | error a =>
          simp only [scanBlocks] at h
          have h2 := ih _ _ h
          simp [List.countP_cons, Frame.isTextStart, Frame.isTextEnd,
            openN_none, openN_some] at h2 ⊢
          omega

lemma openBlock_of_started (st : VercelStreamState) (hs : st.text_started = true)
    (ht : truthyS st.text_id = true) : openBlock st = st.text_id := by
  unfold openBlock
  rw [hs, ht]
  rfl

lemma openBlock_of_not_started (st : VercelStreamState)
    (hs : st.text_started = false) : openBlock st = none := by
  unfold openBlock
  rw [hs]
  rfl

lemma truthyS_some_iff (o : Option String) :
    truthyS o = true ↔ ∃ s, o = some s ∧ s ≠ "" := by
  cases o <;> simp [truthyS]

lemma closeOpenText_spec (st : VercelStreamState) (hok : stateOk st) :
    (closeOpenText st).2.text_started = false ∧
      scanBlocks (openBlock st) (closeOpenText st).1 = some none := by
  unfold closeOpenText
  by_cases hg : (st.text_started && truthyS st.text_id) = true
  · obtain ⟨hs, ht⟩ := Bool.and_eq_true_iff.mp hg
    obtain ⟨s, hsome, _⟩ := (truthyS_some_iff _).mp ht
    rw [if_pos hg, openBlock_of_started st hs ht, hsome]
    exact ⟨rfl, by simp [scanBlocks]⟩
  · have hs : st.text_started = false := by
      cases hss : st.text_started
      · rfl
      · exact absurd (by simp [hss, hok hss]) hg
    rw [if_neg hg, openBlock_of_not_started st hs]
    exact ⟨hs, by simp [scanBlocks]⟩

lemma convert_step (e : StreamEvent) (st : VercelStreamState) (hok : stateOk st) :
    stateOk (convert_to_vercel_events e st).2 ∧
      scanBlocks (openBlock st) (convert_to_vercel_events e st).1 =
        some (openBlock (convert_to_vercel_events e st).2) := by
  unfold convert_to_vercel_events
  have hok1 : stateOk (captureSession e st) := stateOk_captureSession e st hok
  have hob1 : openBlock (captureSession e st) = openBlock st :=
    openBlock_captureSession e st
  set st1 := captureSession e st with hst1
  by_cases ht : e.type = "text"
  · rw [if_pos ht]
    cases hstarted : st1.text_started
    · -- a fresh block is opened
      simp only [hstarted, Bool.not_false, if_pos]
      have hgen : truthyS (some ("text-" ++ toString st1.counter)) = true :=
        truthyS_generated st1.counter
      have hob : openBlock st = none := by
        rw [← hob1]; exact openBlock_of_not_started st1 hstarted
      constructor
      · intro _; simpa [VercelStreamState.generate_text_id] using hgen
      · rw [hob]
        by_cases hd : truthyS e.text = true
        · simp [VercelStreamState.generate_text_id, hd, hgen, scanBlocks,
            openBlock, Option.getD]
        · have hd' : truthyS e.text = false := Bool.eq_false_iff.mpr hd
          simp [VercelStreamState.generate_text_id, hd', hgen, scanBlocks,
            openBlock, Option.getD]
    · -- block already open: only a delta may be emitted
      have htid : truthyS st1.text_id = true := hok1 hstarted
      obtain ⟨s, hsome, _⟩ := (truthyS_some_iff _).mp htid
      have hob : openBlock st = some s := by
        rw [← hob1, openBlock_of_started st1 hstarted htid, hsome]
      simp only [hstarted, Bool.not_true, if_neg]
      constructor
      · simpa using hok1
      · rw [hob]
        have hts : truthyS (some s) = true := by rw [← hsome]; exact htid
        by_cases hd : truthyS e.text = true
        · simp [hd, htid, hsome, hts, scanBlocks, openBlock, hstarted,
            Option.getD]
        · have hd' : truthyS e.text = false := Bool.eq_false_iff.mpr hd
          simp [hd', hsome, hts, scanBlocks, openBlock, hstarted, htid]
  · rw [if_neg ht]
    obtain ⟨hcl_started, hcl_scan⟩ := closeOpenText_spec st1 hok1
    have hcl_open : openBlock (closeOpenText st1).2 = none :=
      openBlock_of_not_started _ hcl_started
    have hcl_ok : stateOk (closeOpenText st1).2 := by
      intro hcontra; rw [hcl_started] at hcontra; exact absurd hcontra (by simp)
    rw [← hob1]
    by_cases h2 : e.type = "tool_start"
    · rw [if_pos h2]
      refine ⟨hcl_ok, ?_⟩
      rw [scanBlocks_append, hcl_scan, hcl_open]
      simp [scanBlocks]
    · rw [if_neg h2]
      by_cases h3 : e.type = "user_input_required"
      · rw [if_pos h3]
        refine ⟨hcl_ok, ?_⟩
        rw [scanBlocks_append, hcl_scan, hcl_open]
        simp [scanBlocks]
      · rw [if_neg h3]
        by_cases h4 : e.type = "tool_result"
        · rw [if_pos h4]
          exact ⟨hok1, by simp [scanBlocks]⟩
        · rw [if_neg h4]
          by_cases h5 : e.type = "done"
          · rw [if_pos h5]
            refine ⟨hcl_ok, ?_⟩
            rw [scanBlocks_append, hcl_scan, hcl_open]
            simp [scanBlocks]
          · rw [if_neg h5]
            by_cases h6 : e.type = "error"
            · rw [if_pos h6]
              refine ⟨hcl_ok, ?_⟩
              rw [scanBlocks_append, hcl_scan, hcl_open]
              simp [scanBlocks]
            · rw [if_neg h6]
              exact ⟨hok1, by simp [scanBlocks]⟩

lemma convertList_cons (e : StreamEvent) (rest : List StreamEvent)
    (st : VercelStreamState) :
    convertList st (e :: rest) =
      ((convert_to_vercel_events e st).1 ++
          (convertList (convert_to_vercel_events e st).2 rest).1,
        (convertList (convert_to_vercel_events e st).2 rest).2) := rfl

lemma convertList_scan (events : List StreamEvent) :
    ∀ (st : VercelStreamState), stateOk st →
      stateOk (convertList st events).2 ∧
        scanBlocks (openBlock st) (convertList st events).1 =
          some (openBlock (convertList st events).2) := by
  induction events with
  | nil => intro st h; exact ⟨h, by simp [convertList, scanBlocks]⟩
  | cons e rest ih =>
      intro st h
      obtain ⟨h1, h2⟩ := convert_step e st h
      obtain ⟨h3, h4⟩ := ih (convert_to_vercel_events e st).2 h1
      rw [convertList_cons]
      refine ⟨h3, ?_⟩
      rw [scanBlocks_append, h2]
      simpa using h4

/-- The event list ends with a terminal (`done` or `error`) event. -/
def lastIsTerminal : List StreamEvent → Bool
  | [] => false
  | [e] => e.type = "done" || e.type = "error"
  | _ :: e :: rest => lastIsTerminal (e :: rest)

lemma convert_closes (e : StreamEvent) (st : VercelStreamState) (hok : stateOk st)
    (hterm : e.type = "done" ∨ e.type = "error") :
    (convert_to_vercel_events e st).2.text_started = false := by
  obtain ⟨hcl, -⟩ :=
    closeOpenText_spec (captureSession e st) (stateOk_captureSession e st hok)
  unfold convert_to_vercel_events
  rcases hterm with h | h
  · rw [if_neg (by rw [h]; decide), if_neg (by rw [h]; decide),
      if_neg (by rw [h]; decide), if_neg (by rw [h]; decide), if_pos h]
    exact hcl
  · rw [if_neg (by rw [h]; decide), if_neg (by rw [h]; decide),
      if_neg (by rw [h]; decide), if_neg (by rw [h]; decide),
      if_neg (by rw [h]; decide), if_pos h]
    exact hcl

lemma convertList_closes (events : List StreamEvent) :
    ∀ (st : VercelStreamState), stateOk st → lastIsTerminal events = true →
      (convertList st events).2.text_started = false := by
  induction events with
  | nil => intro st _ h; simp [lastIsTerminal] at h
  | cons e rest ih =>
      intro st hok hterm
      obtain ⟨h1, -⟩ := convert_step e st hok
      rw [convertList_cons]
      cases rest with
      | nil =>
          simp only [lastIsTerminal, Bool.or_eq_true, decide_eq_true_eq] at hterm
          simpa [convertList] using
            convert_closes e st hok hterm
      | cons e2 rest2 =>
          exact ih (convert_to_vercel_events e st).2 h1 hterm

lemma stateOk_init : stateOk ({} : VercelStreamState) := by
  intro h
  simp at h

lemma openBlock_init : openBlock ({} : VercelStreamState) = none :=
  openBlock_of_not_started _ rfl

lemma streamVercelFrames_scan (events : List StreamEvent) (exc : Option String) :
    scanBlocks none (streamVercelFrames events exc).1 =
        some (openBlock (streamVercelFrames events exc).2) ∧
      stateOk (streamVercelFrames events exc).2 := by
  obtain ⟨h1, h2⟩ := convertList_scan events {} stateOk_init
  rw [openBlock_init] at h2
  cases exc with
  | none =>
      exact ⟨h2, h1⟩
  | some msg =>
      obtain ⟨h3, h4⟩ :=
        convert_step { type := "error", text := some msg, is_error := true }
          (convertList {} events).2 h1
      show scanBlocks none ((convertList {} events).1 ++ _) = _ ∧ _
      refine ⟨?_, h3⟩
      rw [scanBlocks_append, h2]
      simpa using h4

lemma streamVercelFrames_closed (events : List StreamEvent) (exc : Option String)
    (hterm : (lastIsTerminal events || exc.isSome) = true) :
    (streamVercelFrames events exc).2.text_started = false := by
  obtain ⟨h1, -⟩ := convertList_scan events {} stateOk_init
  cases exc with
  | none =>
      simp only [Option.isSome_none, Bool.or_false] at hterm
      exact convertList_closes events {} stateOk_init hterm
  | some msg =>
      exact convert_closes { type := "error", text := some msg, is_error := true }
        (convertList {} events).2 h1 (Or.inr rfl)

/-- C1 (amended): in every translated stream, the text frames are properly
bracketed: a start frame is emitted only with no block open, every end frame
closes the block it names, and every delta frame carries the id of the most
recently opened, not-yet-closed text block; the count of text-start frames
equals the count of text-end frames whenever the event sequence ends with a
terminal (done or error) event or the upstream generator raised. A sequence
ending with a Text event and no terminal event leaves its block open at end
of sequence (see the counterexample). -/
theorem C1_text_bracketing_amended (events : List StreamEvent)
    (exc : Option String) :
    scanBlocks none (streamVercelFrames events exc).1 =
        some (openBlock (streamVercelFrames events exc).2) ∧
      ((lastIsTerminal events || exc.isSome) = true →
        (streamVercelFrames events exc).1.countP Frame.isTextStart =
          (streamVercelFrames events exc).1.countP Frame.isTextEnd) := by
  obtain ⟨hscan, hok⟩ := streamVercelFrames_scan events exc
  refine ⟨hscan, fun hterm => ?_⟩
  have hclosed := streamVercelFrames_closed events exc hterm
  have hopen : openBlock (streamVercelFrames events exc).2 = none :=
    openBlock_of_not_started _ hclosed
  rw [hopen] at hscan
  have := scanBlocks_count _ _ _ hscan
  simpa [openN] using this

/-- Witness for C1 (amended): the sequence Text then Done is bracket-correct
and balanced. -/
theorem C1_text_bracketing_amended_witness :
    scanBlocks none (streamVercelFrames
          [{ type := "text", text := some "hi" }, { type := "done" }] none).1 =
        some (openBlock (streamVercelFrames
          [{ type := "text", text := some "hi" }, { type := "done" }] none).2) ∧
      (streamVercelFrames
          [{ type := "text", text := some "hi" }, { type := "done" }] none).1.countP
          Frame.isTextStart =
        (streamVercelFrames
          [{ type := "text", text := some "hi" }, { type := "done" }] none).1.countP
          Frame.isTextEnd := by
  have h := C1_text_bracketing_amended
    [{ type := "text", text := some "hi" }, { type := "done" }] none
  exact ⟨h.1, h.2 (by rfl)⟩

/-- C1 as stated is false: a sequence consisting of a single Text event and no
terminal event emits one text-start frame but no text-end frame — the open
block is not closed at end of sequence. -/
theorem C1_counterexample :
    (streamVercelFrames [{ type := "text", text := some "hi" }] none).1.countP
        Frame.isTextStart = 1 ∧
      (streamVercelFrames [{ type := "text", text := some "hi" }] none).1.countP
        Frame.isTextEnd = 0 := by
  exact ⟨rfl, rfl⟩

lemma convertList_append (xs : List StreamEvent) :
    ∀ (ys : List StreamEvent) (st : VercelStreamState),
      convertList st (xs ++ ys) =
        ((convertList st xs).1 ++ (convertList (convertList st xs).2 ys).1,
          (convertList (convertList st xs).2 ys).2) := by
  induction xs with
  | nil => intro ys st; simp [convertList]
  | cons e xs ih =>
      intro ys st
      rw [List.cons_append, convertList_cons, convertList_cons, ih]
      simp

/-- C3 (amended): the translator keeps no terminal state. Events arriving
after a translated Done are translated exactly like any other events and
their frames are appended to the stream output; nothing is discarded. -/
theorem C3_no_terminal_guard_amended (pre post : List StreamEvent)
    (st : VercelStreamState) (hdone : lastIsTerminal pre = true) :
    (convertList st (pre ++ post)).1 =
      (convertList st pre).1 ++
        (convertList (convertList st pre).2 post).1 := by
  rw [convertList_append]

/-- Witness for C3 (amended): a Text event following a Done is translated and
its frames appended. -/
theorem C3_no_terminal_guard_amended_witness :
    (convertList {} ([{ type := "done" }] ++
        [{ type := "text", text := some "x" }])).1 =
      (convertList {} [{ type := "done" }]).1 ++
        (convertList (convertList {} [{ type := "done" }]).2
          [{ type := "text", text := some "x" }]).1 := by
  exact C3_no_terminal_guard_amended [{ type := "done" }]
    [{ type := "text", text := some "x" }] {} (by rfl)

/-- C3 as stated is false: after a Done has been translated, a following Text
event still produces frames (a text-start and a text-delta follow the finish
frame); nothing is discarded. -/
theorem C3_counterexample :
    (streamVercelFrames
        [{ type := "done" }, { type := "text", text := some "x" }] none).1 =
      (streamVercelFrames [{ type := "done" }] none).1 ++
        [Frame.textStart "text-0", Frame.textDelta "text-0" "x"] := by
  rfl

/-- `SessionState` enum from src/backend/src/services/sessions.py. -/
inductive SessionState where
  | ACTIVE
  | STREAMING
  | WAITING_INPUT
  | COMPLETED
  | ERROR
  deriving DecidableEq

/-- Content blocks of the upstream SDK messages consumed by
`_process_response` (text / tool-use / tool-result). The SDK allows a
tool-result `content` that is not a string; the code stringifies it, so the
embedded `content` keeps the string-or-absent shape the claims exercise. -/
inductive ContentBlock where
  | textBlock (text : String)
  | toolUseBlock (id : String) (name : String) (input : List (String × JsonV))
  | toolResultBlock (tool_use_id : String) (content : Option String)
      (is_error : Option Bool)

/-- Messages of the upstream SDK response sequence: assistant content,
user-role content, and the terminal result message. -/
inductive SDKMessage where
  | assistantMessage (content : List ContentBlock)
  | userMessage (content : List ContentBlock)
  | resultMessage (session_id : String) (total_cost_usd : Option Rat)
      (is_error : Bool)

/-- `AgentManager._create_tool_result_event` from client.py
(`str(None)` is the string None). -/
def create_tool_result_event (tool_use_id : String) (content : Option String)
    (is_error : Option Bool) (sid : String) : StreamEvent :=
  { type := "tool_result",
    tool_id := some tool_use_id,
    tool_result := some (match content with | some s => s | none => "None"),
    is_error := is_error.getD false,
    session_id := some sid }

/-- The final session state chosen when a `ResultMessage` arrives
(`SessionState.ERROR if message.is_error else SessionState.ACTIVE`). -/
def doneFinalState (is_error : Bool) : SessionState :=
  if is_error then SessionState.ERROR else SessionState.ACTIVE

/-- The `AssistantMessage` arm of `_process_response`: iterate the content
blocks, yielding events, growing the `ask_user_question_ids` set, and
recording the session states set as side effects (in order). -/
def processAssistantBlocks (sid : String) (ask : List String) :
    List ContentBlock → List StreamEvent × List String × List SessionState
  | [] => ([], ask, [])
  | ContentBlock.textBlock t :: rest =>
      let r := processAssistantBlocks sid ask rest
      ({ type := "text", text := some t, session_id := some sid } :: r.1,
        r.2.1, r.2.2)
  | ContentBlock.toolUseBlock id name input :: rest =>
      if name = "AskUserQuestion" then
        let r := processAssistantBlocks sid (ask ++ [id]) rest
        ({ type := "user_input_required", tool_name := some name,
            tool_id := some id, tool_input := some input,
            questions := dictGet input "questions",
            session_id := some sid } :: r.1,
          r.2.1, SessionState.WAITING_INPUT :: r.2.2)
      else
        let r := processAssistantBlocks sid ask rest
        ({ type := "tool_start", tool_name := some name, tool_id := some id,
            tool_input := some input, session_id := some sid } :: r.1,
          r.2.1, r.2.2)
  | ContentBlock.toolResultBlock id content iserr :: rest =>
      let r := processAssistantBlocks sid ask rest
      (create_tool_result_event id content iserr sid :: r.1, r.2.1, r.2.2)

/-- The `UserMessage` arm of `_process_response`: only tool-result blocks are
considered; a result whose id is in `ask_user_question_ids` is skipped. -/
def processUserBlocks (sid : String) (ask : List String) :
    List ContentBlock → List StreamEvent
  | [] => []
  | ContentBlock.toolResultBlock id content iserr :: rest =>
      if ask.contains id then processUserBlocks sid ask rest
      else create_tool_result_event id content iserr sid ::
        processUserBlocks sid ask rest
  | _ :: rest => processUserBlocks sid ask rest

/-- `AgentManager._process_response` from client.py, over the finite upstream
message sequence: returns the yielded events, the final
`ask_user_question_ids`, the session states set as side effects (in order),
and the final `sdk_session_id`. -/
def process_response (sid : String) (sdk : String) (ask : List String) :
    List SDKMessage →
      List StreamEvent × List String × List SessionState × String
  | [] => ([], ask, [], sdk)
  | SDKMessage.assistantMessage bs :: rest =>
      let a := processAssistantBlocks sid ask bs
      let r := process_response sid sdk a.2.1 rest
      (a.1 ++ r.1, r.2.1, a.2.2 ++ r.2.2.1, r.2.2.2)
  | SDKMessage.userMessage bs :: rest =>
      let es := processUserBlocks sid ask bs
      let r := process_response sid sdk ask rest
      (es ++ r.1, r.2.1, r.2.2.1, r.2.2.2)
  | SDKMessage.resultMessage msid cost iserr :: rest =>
      let sdk1 := if msid ≠ "" then msid else sdk
      let r := process_response sid sdk1 ask rest
      ({ type := "done", session_id := some sid, cost := cost,
          is_error := iserr } :: r.1,
        r.2.1, doneFinalState iserr :: r.2.2.1, r.2.2.2)

/-- The internal event is a tool-result event for call id `c`. -/
def isResultEventFor (c : String) (e : StreamEvent) : Bool :=
  decide (e.type = "tool_result" ∧ e.tool_id = some c)

/-- The internal event announces a tool call with id `c` (an ordinary tool
start or an interactive-question pause). -/
def isToolCallEventFor (c : String) (e : StreamEvent) : Bool :=
  decide ((e.type = "tool_start" ∨ e.type = "user_input_required") ∧
    e.tool_id = some c)

lemma convert_output_count (c : String) (e : StreamEvent)
    (st : VercelStreamState) :
    ((convert_to_vercel_events e st).1.countP (Frame.isToolOutputFor c)) =
      (if isResultEventFor c e then 1 else 0) := by
  simp only [convert_to_vercel_events, closeOpenText, List.countP_append,
    isResultEventFor]
  repeat' split
  all_goals simp_all [List.countP_cons, List.countP_append, List.countP,
    List.countP.go, Frame.isToolOutputFor]

lemma convert_inputStart_count (c : String) (e : StreamEvent)
    (st : VercelStreamState) :
    ((convert_to_vercel_events e st).1.countP (Frame.isToolInputStartFor c)) =
      (if isToolCallEventFor c e then 1 else 0) := by
  simp only [convert_to_vercel_events, closeOpenText, List.countP_append,
    isToolCallEventFor]
  repeat' split
  all_goals simp_all [List.countP_cons, List.countP_append, List.countP,
    List.countP.go, Frame.isToolInputStartFor]

lemma convert_inputAvailable_count (c : String) (e : StreamEvent)
    (st : VercelStreamState) :
    ((convert_to_vercel_events e st).1.countP
        (Frame.isToolInputAvailableFor c)) =
      (if isToolCallEventFor c e then 1 else 0) := by
  simp only [convert_to_vercel_events, closeOpenText, List.countP_append,
    isToolCallEventFor]
  repeat' split
  all_goals simp_all [List.countP_cons, List.countP_append, List.countP,
    List.countP.go, Frame.isToolInputAvailableFor]

lemma convertList_countP (P : Frame → Bool) (Q : StreamEvent → Bool)
    (h : ∀ e st, ((convert_to_vercel_events e st).1.countP P) =
      (if Q e then 1 else 0)) (events : List StreamEvent) :
    ∀ st, ((convertList st events).1.countP P) = events.countP Q := by
  induction events with
  | nil => intro st; simp [convertList]
  | cons e rest ih =>
      intro st
      rw [convertList_cons]
      simp only [List.countP_append, List.countP_cons, h, ih]
      split <;> omega

/-- The content block is a tool-result block for call id `c`. -/
def isResultBlockFor (c : String) : ContentBlock → Bool
  | ContentBlock.toolResultBlock id _ _ => id = c
  | _ => false

/-- The content block is a tool-use block with call id `c`. -/
def isToolUseBlockFor (c : String) : ContentBlock → Bool
  | ContentBlock.toolUseBlock id _ _ => id = c
  | _ => false

/-- Call ids of the interactive-question tool uses in a block list, in order. -/
def askStartsOf : List ContentBlock → List String
  | [] => []
  | ContentBlock.toolUseBlock id name _ :: rest =>
      if name = "AskUserQuestion" then id :: askStartsOf rest
      else askStartsOf rest
  | _ :: rest => askStartsOf rest

/-- Tool-result blocks for `c` carried in assistant-role messages. -/
def assistantResultCount (c : String) : List SDKMessage → Nat
  | [] => 0
  | SDKMessage.assistantMessage bs :: rest =>
      bs.countP (isResultBlockFor c) + assistantResultCount c rest
  | _ :: rest => assistantResultCount c rest

/-- Tool-result blocks for `c` carried in user-role messages. -/
def userResultCount (c : String) : List SDKMessage → Nat
  | [] => 0
  | SDKMessage.userMessage bs :: rest =>
      bs.countP (isResultBlockFor c) + userResultCount c rest
  | _ :: rest => userResultCount c rest

/-- Tool-use blocks with call id `c` in assistant-role messages. -/
def toolUseCount (c : String) : List SDKMessage → Nat
  | [] => 0
  | SDKMessage.assistantMessage bs :: rest =>
      bs.countP (isToolUseBlockFor c) + toolUseCount c rest
  | _ :: rest => toolUseCount c rest

/-- Some assistant-role message starts the interactive-question tool with
call id `c`. -/
def askStarted (c : String) : List SDKMessage → Bool
  | [] => false
  | SDKMessage.assistantMessage bs :: rest =>
      decide (c ∈ askStartsOf bs) || askStarted c rest
  | _ :: rest => askStarted c rest

/-- Every user-role tool-result block for `c` occurs at a point where `c` is
already in the interactive-question set accumulated from `ask` (in other
words, the ToolStart of the interactive-question tool for `c` precedes each
user-role result for `c`). -/
def userResultsSuppressed (c : String) (ask : List String) :
    List SDKMessage → Bool
  | [] => true
  | SDKMessage.assistantMessage bs :: rest =>
      userResultsSuppressed c (ask ++ askStartsOf bs) rest
  | SDKMessage.userMessage bs :: rest =>
      (bs.all (fun b => !(isResultBlockFor c b)) || decide (c ∈ ask)) &&
        userResultsSuppressed c ask rest
  | SDKMessage.resultMessage _ _ _ :: rest => userResultsSuppressed c ask rest

/-- The number of tool-result events `process_response` emits for `c`,
computed directly over the message list (assistant-role results are always
forwarded; user-role results only when `c` is not in the accumulated
interactive-question set). -/
def resultEventsSpec (c : String) (ask : List String) : List SDKMessage → Nat
  | [] => 0
  | SDKMessage.assistantMessage bs :: rest =>
      bs.countP (isResultBlockFor c) +
        resultEventsSpec c (ask ++ askStartsOf bs) rest
  | SDKMessage.userMessage bs :: rest =>
      (if c ∈ ask then 0 else bs.countP (isResultBlockFor c)) +
        resultEventsSpec c ask rest
  | SDKMessage.resultMessage _ _ _ :: rest => resultEventsSpec c ask rest

lemma processAssistant_counts (c sid : String) (bs : List ContentBlock) :
    ∀ ask : List String,
      (processAssistantBlocks sid ask bs).1.countP (isResultEventFor c) =
          bs.countP (isResultBlockFor c) ∧
        (processAssistantBlocks sid ask bs).1.countP (isToolCallEventFor c) =
          bs.countP (isToolUseBlockFor c) ∧
        (processAssistantBlocks sid ask bs).2.1 = ask ++ askStartsOf bs := by
  induction bs with
  | nil => intro ask; simp [processAssistantBlocks, askStartsOf]
  | cons b rest ih =>
      intro ask
      cases b with
      | textBlock t =>
          obtain ⟨h1, h2, h3⟩ := ih ask
          simp [processAssistantBlocks, askStartsOf, List.countP_cons,
            isResultEventFor, isToolCallEventFor, isResultBlockFor,
            isToolUseBlockFor, h1, h2, h3]
      | toolUseBlock id name input =>
          by_cases hn : name = "AskUserQuestion"
          · obtain ⟨h1, h2, h3⟩ := ih (ask ++ [id])
            simp [processAssistantBlocks, askStartsOf, hn, List.countP_cons,
              isResultEventFor, isToolCallEventFor, isResultBlockFor,
              isToolUseBlockFor, h1, h2, h3]
          · obtain ⟨h1, h2, h3⟩ := ih ask
            simp [processAssistantBlocks, askStartsOf, hn, List.countP_cons,
              isResultEventFor, isToolCallEventFor, isResultBlockFor,
              isToolUseBlockFor, h1, h2, h3]
      | toolResultBlock id content iserr =>
          obtain ⟨h1, h2, h3⟩ := ih ask
          simp [processAssistantBlocks, askStartsOf, List.countP_cons,
            isResultEventFor, isToolCallEventFor, isResultBlockFor,
            isToolUseBlockFor, create_tool_result_event, h1, h2, h3]

lemma processUser_counts (c sid : String) (bs : List ContentBlock) :
    ∀ ask : List String,
      (processUserBlocks sid ask bs).countP (isResultEventFor c) =
          (if c ∈ ask then 0 else bs.countP (isResultBlockFor c)) ∧
        (processUserBlocks sid ask bs).countP (isToolCallEventFor c) = 0 := by
  induction bs with
  | nil => intro ask; simp [processUserBlocks]
  | cons b rest ih =>
      intro ask
      obtain ⟨h1, h2⟩ := ih ask
      cases b with
      | textBlock t =>
          refine ⟨?_, ?_⟩ <;>
            simp [processUserBlocks, List.countP_cons, isResultBlockFor, h1, h2]
      | toolUseBlock id name input =>
          refine ⟨?_, ?_⟩ <;>
            simp [processUserBlocks, List.countP_cons, isResultBlockFor, h1, h2]
      | toolResultBlock id content iserr =>
          by_cases hid : id ∈ ask
          · by_cases hc : id = c
            · subst hc
              refine ⟨?_, ?_⟩ <;>
                simp [processUserBlocks, hid, List.countP_cons, h1, h2]
            · refine ⟨?_, ?_⟩ <;>
                simp [processUserBlocks, hid, List.countP_cons,
                  isResultBlockFor, hc, h1, h2]
          · by_cases hc : id = c
            · subst hc
              refine ⟨?_, ?_⟩ <;>
                simp [processUserBlocks, hid, List.countP_cons,
                  isResultEventFor, isToolCallEventFor, isResultBlockFor,
                  create_tool_result_event, h1, h2]
            · refine ⟨?_, ?_⟩ <;>
                simp [processUserBlocks, hid, List.countP_cons,
                  isResultEventFor, isToolCallEventFor, isResultBlockFor,
                  create_tool_result_event, hc, h1, h2]

lemma process_response_result_count (c sid sdk : String)
    (msgs : List SDKMessage) :
    ∀ ask : List String,
      (process_response sid sdk ask msgs).1.countP (isResultEventFor c) =
        resultEventsSpec c ask msgs := by
  induction msgs generalizing sdk with
  | nil => intro ask; simp [process_response, resultEventsSpec]
  | cons m rest ih =>
      intro ask
      cases m with
      | assistantMessage bs =>
          obtain ⟨h1, -, h3⟩ := processAssistant_counts c sid bs ask
          simp [process_response, resultEventsSpec, List.countP_append,
            h1, h3, ih]
      | userMessage bs =>
          obtain ⟨h1, -⟩ := processUser_counts c sid bs ask
          simp [process_response, resultEventsSpec, List.countP_append, h1, ih]
      | resultMessage msid cost iserr =>
          simp [process_response, resultEventsSpec, List.countP_cons,
            isResultEventFor, ih]

lemma process_response_toolcall_count (c sid sdk : String)
    (msgs : List SDKMessage) :
    ∀ ask : List String,
      (process_response sid sdk ask msgs).1.countP (isToolCallEventFor c) =
        toolUseCount c msgs := by
  induction msgs generalizing sdk with
  | nil => intro ask; simp [process_response, toolUseCount]
  | cons m rest ih =>
      intro ask
      cases m with
      | assistantMessage bs =>
          obtain ⟨-, h2, -⟩ := processAssistant_counts c sid bs ask
          simp [process_response, toolUseCount, List.countP_append, h2, ih]
      | userMessage bs =>
          obtain ⟨-, h2⟩ := processUser_counts c sid bs ask
          simp [process_response, toolUseCount, List.countP_append, h2, ih]
      | resultMessage msid cost iserr =>
          simp [process_response, toolUseCount, List.countP_cons,
            isToolCallEventFor, ih]

lemma resultEventsSpec_suppressed (c : String) (msgs : List SDKMessage) :
    ∀ ask : List String, userResultsSuppressed c ask msgs = true →
      resultEventsSpec c ask msgs = assistantResultCount c msgs := by
  induction msgs with
  | nil => intro ask _; simp [resultEventsSpec, assistantResultCount]
  | cons m rest ih =>
      intro ask h
      cases m with
      | assistantMessage bs =>
          simp only [userResultsSuppressed] at h
          simp [resultEventsSpec, assistantResultCount, ih _ h]
      | userMessage bs =>
          simp only [userResultsSuppressed, Bool.and_eq_true,
            Bool.or_eq_true] at h
          obtain ⟨hhead, hrest⟩ := h
          have hz : (if c ∈ ask then 0
              else bs.countP (isResultBlockFor c)) = 0 := by
            rcases hhead with hall | hc
            · rw [List.all_eq_true] at hall
              have : bs.countP (isResultBlockFor c) = 0 :=
                List.countP_eq_zero.mpr (fun b hb => by
                  have := hall b hb
                  simpa using this)
              simp [this]
            · simp [of_decide_eq_true hc]
          simp [resultEventsSpec, assistantResultCount, hz, ih _ hrest]
      | resultMessage msid cost iserr =>
          simp only [userResultsSuppressed] at h
          simp [resultEventsSpec, assistantResultCount, ih _ h]

lemma resultEventsSpec_not_started (c : String) (msgs : List SDKMessage) :
    ∀ ask : List String, askStarted c msgs = false →
      c ∉ ask →
      resultEventsSpec c ask msgs =
        assistantResultCount c msgs + userResultCount c msgs := by
  induction msgs with
  | nil =>
      intro ask _ _
      simp [resultEventsSpec, assistantResultCount, userResultCount]
  | cons m rest ih =>
      intro ask hstart hask
      cases m with
      | assistantMessage bs =>
          simp only [askStarted, Bool.or_eq_false_iff,
            decide_eq_false_iff_not] at hstart
          obtain ⟨hbs, hrest⟩ := hstart
          have hask2 : c ∉ ask ++ askStartsOf bs := by
            rw [List.mem_append]
            rintro (h | h)
            · exact hask h
            · exact hbs h
          simp [resultEventsSpec, assistantResultCount, userResultCount,
            ih _ hrest hask2]
          omega
      | userMessage bs =>
          simp only [askStarted] at hstart
          simp [resultEventsSpec, assistantResultCount, userResultCount,
            hask, ih _ hstart hask]
          omega
      | resultMessage msid cost iserr =>
          simp only [askStarted] at hstart
          simp [resultEventsSpec, assistantResultCount, userResultCount,
            ih _ hstart hask]

/-- The frames the chat route emits for one turn: the events produced by
`_process_response` driven through `convert_to_vercel_events`. -/
def turnFrames (sid : String) (msgs : List SDKMessage) : List Frame :=
  (convertList {} (process_response sid "default" [] msgs).1).1

/-- C2 (amended): the interactive-question suppression applies to tool results
arriving in user-role messages. Every tool-use block with call id c yields its
two tool-input frames; when every user-role ToolResult for c is preceded by an
AskUserQuestion ToolStart for c, no user-role result for c is forwarded (the
output frames for c are exactly the assistant-role results); a ToolResult for
c arriving in an assistant-role message is always forwarded, and when c was
never started by AskUserQuestion every ToolResult for c yields exactly one
tool-output-available frame. -/
theorem C2_ask_suppression_amended (sid c : String) (msgs : List SDKMessage) :
    ((turnFrames sid msgs).countP (Frame.isToolInputStartFor c) =
        toolUseCount c msgs) ∧
      ((turnFrames sid msgs).countP (Frame.isToolInputAvailableFor c) =
        toolUseCount c msgs) ∧
      (userResultsSuppressed c [] msgs = true →
        (turnFrames sid msgs).countP (Frame.isToolOutputFor c) =
          assistantResultCount c msgs) ∧
      (askStarted c msgs = false →
        (turnFrames sid msgs).countP (Frame.isToolOutputFor c) =
          assistantResultCount c msgs + userResultCount c msgs) := by
  have hout := convertList_countP (Frame.isToolOutputFor c)
    (isResultEventFor c) (convert_output_count c)
    (process_response sid "default" [] msgs).1 {}
  have hin1 := convertList_countP (Frame.isToolInputStartFor c)
    (isToolCallEventFor c) (convert_inputStart_count c)
    (process_response sid "default" [] msgs).1 {}
  have hin2 := convertList_countP (Frame.isToolInputAvailableFor c)
    (isToolCallEventFor c) (convert_inputAvailable_count c)
    (process_response sid "default" [] msgs).1 {}
  have hres := process_response_result_count c sid "default" msgs []
  have hcall := process_response_toolcall_count c sid "default" msgs []
  refine ⟨?_, ?_, ?_, ?_⟩
  · rw [turnFrames, hin1, hcall]
  · rw [turnFrames, hin2, hcall]
  · intro hsup
    rw [turnFrames, hout, hres, resultEventsSpec_suppressed c msgs [] hsup]
  · intro hstart
    rw [turnFrames, hout, hres,
      resultEventsSpec_not_started c msgs [] hstart (by simp)]

/-- Witness for C2 (amended): an AskUserQuestion start for q1 followed by a
user-role result for q1, and an ordinary tool t1 with its result. -/
theorem C2_ask_suppression_amended_witness :
    ((turnFrames "s1"
        [SDKMessage.assistantMessage
            [ContentBlock.toolUseBlock "q1" "AskUserQuestion" []],
          SDKMessage.userMessage
            [ContentBlock.toolResultBlock "q1" (some "picked") none]]).countP
          (Frame.isToolInputStartFor "q1") =
        toolUseCount "q1"
          [SDKMessage.assistantMessage
              [ContentBlock.toolUseBlock "q1" "AskUserQuestion" []],
            SDKMessage.userMessage
              [ContentBlock.toolResultBlock "q1" (some "picked") none]]) ∧
      (turnFrames "s1"
          [SDKMessage.assistantMessage
              [ContentBlock.toolUseBlock "q1" "AskUserQuestion" []],
            SDKMessage.userMessage
              [ContentBlock.toolResultBlock "q1" (some "picked") none]]).countP
          (Frame.isToolOutputFor "q1") =
        assistantResultCount "q1"
          [SDKMessage.assistantMessage
              [ContentBlock.toolUseBlock "q1" "AskUserQuestion" []],
            SDKMessage.userMessage
              [ContentBlock.toolResultBlock "q1" (some "picked") none]] := by
  have h := C2_ask_suppression_amended "s1" "q1"
    [SDKMessage.assistantMessage
        [ContentBlock.toolUseBlock "q1" "AskUserQuestion" []],
      SDKMessage.userMessage
        [ContentBlock.toolResultBlock "q1" (some "picked") none]]
  exact ⟨h.1, h.2.2.1 (by decide)⟩

/-- C2 as stated is false: when the AskUserQuestion result arrives in an
assistant-role message, `_process_response` forwards it (the membership check
against `ask_user_question_ids` exists only in the user-role arm), so one
tool-output-available frame is emitted for the interactive-question call id
where the claim requires none. -/
theorem C2_counterexample :
    (turnFrames "s1"
        [SDKMessage.assistantMessage
            [ContentBlock.toolUseBlock "q1" "AskUserQuestion" []],
          SDKMessage.assistantMessage
            [ContentBlock.toolResultBlock "q1" (some "picked") none]]).countP
        (Frame.isToolOutputFor "q1") = 1 := by
  rfl

/-- `ManagedSession` dataclass from src/backend/src/services/sessions.py.
The owned `ClaudeSDKClient` is modelled by an opaque connection id `connId`;
the `options` payload is opaque configuration and is not carried. Timestamps
are integers (seconds). -/
structure ManagedSession where
  connId : Nat
  session_id : String
  created_at : Int
  last_accessed : Int
  state : SessionState := SessionState.ACTIVE
  user_id : Option String := none
  sdk_session_id : String := "default"

/-- `ManagedSession.touch`: refresh the last-accessed timestamp. -/
def ManagedSession.touch (s : ManagedSession) (now : Int) : ManagedSession :=
  { s with last_accessed := now }

/-- `ManagedSession.is_expired`: strictly older than the TTL. -/
def ManagedSession.is_expired (s : ManagedSession) (ttl_seconds : Int)
    (now : Int) : Bool :=
  now - s.last_accessed > ttl_seconds

/-- Registry lookup (`self._sessions.get(session_id)`). -/
def regGet (r : List (String × ManagedSession)) (id : String) :
    Option ManagedSession :=
  match r with
  | [] => none
  | (k, v) :: rest => if k = id then some v else regGet rest id

/-- Registry insert/update (`self._sessions[session_id] = session`):
replace in place or append. -/
def regSet (r : List (String × ManagedSession)) (id : String)
    (s : ManagedSession) : List (String × ManagedSession) :=
  match r with
  | [] => [(id, s)]
  | (k, v) :: rest =>
      if k = id then (id, s) :: rest else (k, v) :: regSet rest id s

/-- Registry removal (`del self._sessions[session_id]` / `pop`). -/
def regRemove (r : List (String × ManagedSession)) (id : String) :
    List (String × ManagedSession) :=
  r.filter (fun kv => kv.1 ≠ id)

/-- `SessionManager` from sessions.py: the in-memory registry and TTL. The
asyncio lock serializes the operations; each embedded operation is one
critical section. -/
structure SessionManager where
  sessions : List (String × ManagedSession)
  ttl_seconds : Int

/-- `SessionManager._cleanup_session`: attempt to disconnect the session's
client; an exception from the disconnect (`fails` oracle) is caught and
logged, never propagated. Returns the attempted disconnect. -/
def cleanup_session (fails : Nat → Bool) (s : ManagedSession) : List Nat :=
  [s.connId]

/-- `SessionManager.get_session`: look up, evict if expired (returning
absent), otherwise touch and return. Also returns the updated manager and
the connection ids disconnected. -/
def get_session (m : SessionManager) (id : String) (now : Int) :
    Option ManagedSession × SessionManager × List Nat :=
  match regGet m.sessions id with
  | none => (none, m, [])
  | some s =>
      if s.is_expired m.ttl_seconds now then
        (none, { m with sessions := regRemove m.sessions id },
          cleanup_session (fun _ => false) s)
      else
        (some (s.touch now),
          { m with sessions := regSet m.sessions id (s.touch now) }, [])

/-- `SessionManager.delete_session`: pop the record; absent gives false with
no side effects, present releases the connection (failures swallowed by
`_cleanup_session`) and returns true. -/
def delete_session (fails : Nat → Bool) (m : SessionManager) (id : String) :
    Bool × SessionManager × List Nat :=
  match regGet m.sessions id with
  | none => (false, m, [])
  | some s =>
      (true, { m with sessions := regRemove m.sessions id },
        cleanup_session fails s)

/-- `SessionManager.create_session`: draw a fresh id, connect the client
(`connectResult` is the outcome of `ClaudeSDKClient.connect`), and only then
insert the record; a connect failure propagates before any insertion. -/
def create_session (m : SessionManager) (connectResult : Except String Nat)
    (newId : String) (now : Int) (user_id : Option String) :
    Except String ManagedSession × SessionManager :=
  match connectResult with
  | Except.error e => (Except.error e, m)
  | Except.ok conn =>
      let s : ManagedSession :=
        { connId := conn, session_id := newId, created_at := now,
          last_accessed := now, state := SessionState.ACTIVE,
          user_id := user_id, sdk_session_id := "default" }
      (Except.ok s, { m with sessions := regSet m.sessions newId s })

/-- `SessionManager.cleanup_expired`: evict every record past TTL, returning
the eviction count, the swept manager and the disconnects. -/
def cleanup_expired (m : SessionManager) (now : Int) :
    Nat × SessionManager × List Nat :=
  let expired := m.sessions.filter
    (fun kv => kv.2.is_expired m.ttl_seconds now)
  (expired.length,
    { m with sessions :=
        m.sessions.filter (fun kv => !(kv.2.is_expired m.ttl_seconds now)) },
    expired.map (fun kv => kv.2.connId))

/-- `SessionManager.cleanup_all`: disconnect everything and clear. -/
def cleanup_all (m : SessionManager) : Nat × SessionManager × List Nat :=
  (m.sessions.length, { m with sessions := [] },
    m.sessions.map (fun kv => kv.2.connId))

/-- `SessionManager.set_session_state`: `SessionNotFoundError` when absent,
otherwise mutate the state and touch. -/
def set_session_state (m : SessionManager) (id : String)
    (state : SessionState) (now : Int) : Except String SessionManager :=
  match regGet m.sessions id with
  | none => Except.error ("Session " ++ id ++ " not found")
  | some s =>
      let s2 : ManagedSession :=
        { s with state := state, last_accessed := now }
      Except.ok { m with sessions := regSet m.sessions id s2 }

lemma regGet_remove (r : List (String × ManagedSession)) (id : String) :
    regGet (regRemove r id) id = none := by
  induction r with
  | nil => rfl
  | cons kv rest ih =>
      by_cases h : kv.1 = id
      · simpa [regRemove, List.filter_cons, h] using ih
      · simpa [regRemove, List.filter_cons, regGet, h] using ih

lemma regGet_set_self (r : List (String × ManagedSession)) (id : String)
    (s : ManagedSession) : regGet (regSet r id s) id = some s := by
  induction r with
  | nil => simp [regSet, regGet]
  | cons kv rest ih =>
      by_cases h : kv.1 = id
      · simp [regSet, regGet, h]
      · simp [regSet, regGet, h, ih]

lemma regGet_set_other (r : List (String × ManagedSession)) (id id2 : String)
    (s : ManagedSession) (h : id2 ≠ id) :
    regGet (regSet r id s) id2 = regGet r id2 := by
  have h2 : ¬(id = id2) := fun hh => h hh.symm
  induction r with
  | nil => simp [regSet, regGet, h2]
  | cons kv rest ih =>
      by_cases hk : kv.1 = id
      · have hki : ¬(kv.1 = id2) := by rw [hk]; exact h2
        simp [regSet, regGet, hk, h2, hki]
      · simp [regSet, regGet, hk, ih]

lemma regGet_remove_other (r : List (String × ManagedSession))
    (id id2 : String) (h : id2 ≠ id) :
    regGet (regRemove r id) id2 = regGet r id2 := by
  have h2 : ¬(id = id2) := fun hh => h hh.symm
  induction r with
  | nil => rfl
  | cons kv rest ih =>
      by_cases hk : kv.1 = id
      · have hk2 : ¬(kv.1 = id2) := by rw [hk]; exact h2
        simpa [regRemove, List.filter_cons, regGet, hk, hk2, h2] using ih
      · by_cases hk2 : kv.1 = id2
        · simp [regRemove, List.filter_cons, regGet, hk, hk2, h, h2]
        · simpa [regRemove, List.filter_cons, regGet, hk, hk2, h, h2] using ih

lemma regSet_length_of_fresh (r : List (String × ManagedSession))
    (id : String) (s : ManagedSession) (h : regGet r id = none) :
    (regSet r id s).length = r.length + 1 := by
  induction r with
  | nil => rfl
  | cons kv rest ih =>
      by_cases hk : kv.1 = id
      · simp [regGet, hk] at h
      · simp [regGet, hk] at h
        simp [regSet, hk, ih h]

/-- C6: `get_session` on a record whose idle age strictly exceeds the TTL
returns absent, releases its connection and removes it from the registry so
the id is never retrievable again; on a live record it refreshes
`last_accessed` and returns the record. -/
theorem C6_get_expiry_eviction (m : SessionManager) (id : String) (now : Int)
    (s : ManagedSession) (hfound : regGet m.sessions id = some s) :
    ((now - s.last_accessed > m.ttl_seconds) →
      (get_session m id now).1 = none ∧
        regGet (get_session m id now).2.1.sessions id = none ∧
        (get_session m id now).2.2 = [s.connId] ∧
        (∀ now2 : Int, (get_session (get_session m id now).2.1 id now2).1 =
          none)) ∧
      (¬(now - s.last_accessed > m.ttl_seconds) →
        (get_session m id now).1 = some (s.touch now) ∧
          regGet (get_session m id now).2.1.sessions id =
            some (s.touch now) ∧
          (get_session m id now).2.2 = []) := by
  constructor
  · intro hexp
    have he : s.is_expired m.ttl_seconds now = true := by
      simp [ManagedSession.is_expired, hexp]
    have hrun : get_session m id now =
        (none, { m with sessions := regRemove m.sessions id }, [s.connId]) := by
      simp [get_session, hfound, he, cleanup_session]
    refine ⟨by rw [hrun], ?_, by rw [hrun], ?_⟩
    · rw [hrun]
      exact regGet_remove m.sessions id
    · intro now2
      rw [hrun]
      have hnone : regGet (regRemove m.sessions id) id = none :=
        regGet_remove m.sessions id
      simp [get_session, hnone]
  · intro hexp
    have he : s.is_expired m.ttl_seconds now = false := by
      simp [ManagedSession.is_expired, hexp]
    have hrun : get_session m id now =
        (some (s.touch now),
          { m with sessions := regSet m.sessions id (s.touch now) }, []) := by
      simp [get_session, hfound, he]
    refine ⟨by rw [hrun], ?_, by rw [hrun]⟩
    rw [hrun]
    exact regGet_set_self m.sessions id (s.touch now)

/-- A sample record used by the store witnesses. -/
def sampleSession : ManagedSession :=
  { connId := 7, session_id := "s1", created_at := 0, last_accessed := 0 }

/-- A sample one-record manager with a 100 second TTL. -/
def sampleManager : SessionManager :=
  { sessions := [("s1", sampleSession)], ttl_seconds := 100 }

/-- Witness for C6: a session idle for 101 seconds under a 100 second TTL is
evicted and stays gone; the same session read at 50 seconds is refreshed. -/
theorem C6_get_expiry_eviction_witness :
    ((get_session sampleManager "s1" 101).1 = none ∧
      regGet (get_session sampleManager "s1" 101).2.1.sessions "s1" = none ∧
      (get_session sampleManager "s1" 101).2.2 = [7] ∧
      (∀ now2 : Int,
        (get_session (get_session sampleManager "s1" 101).2.1 "s1"
          now2).1 = none)) ∧
    (get_session sampleManager "s1" 50).1 = some (sampleSession.touch 50) := by
  constructor
  · exact (C6_get_expiry_eviction sampleManager "s1" 101 sampleSession rfl).1
      (by decide)
  · exact ((C6_get_expiry_eviction sampleManager "s1" 50 sampleSession
      rfl).2 (by decide)).1

/-- C7: `delete_session` is idempotent best-effort teardown: unknown id gives
false with the registry untouched and no disconnect; a known id disconnects
the record's connection exactly once, removes only that record, returns true,
and the outcome is identical whatever the disconnect-failure oracle says
(release failures are swallowed). -/
theorem C7_delete_best_effort (m : SessionManager) (id : String)
    (fails : Nat → Bool) :
    (regGet m.sessions id = none →
      delete_session fails m id = (false, m, [])) ∧
      (∀ s, regGet m.sessions id = some s →
        (delete_session fails m id).1 = true ∧
          regGet (delete_session fails m id).2.1.sessions id = none ∧
          (∀ id2, id2 ≠ id →
            regGet (delete_session fails m id).2.1.sessions id2 =
              regGet m.sessions id2) ∧
          (delete_session fails m id).2.2 = [s.connId] ∧
          (∀ fails2 : Nat → Bool,
            delete_session fails2 m id = delete_session fails m id)) := by
  constructor
  · intro h
    simp [delete_session, h]
  · intro s h
    refine ⟨by simp [delete_session, h], ?_, ?_, ?_, ?_⟩
    · simp only [delete_session, h]
      exact regGet_remove m.sessions id
    · intro id2 h2
      simp only [delete_session, h]
      exact regGet_remove_other m.sessions id id2 h2
    · simp [delete_session, h, cleanup_session]
    · intro fails2
      simp [delete_session, h, cleanup_session]

/-- Witness for C7: deleting an absent id is a no-op returning false;
deleting a present id removes it, closes connection 7 once, and a failing
disconnect oracle changes nothing. -/
theorem C7_delete_best_effort_witness :
    delete_session (fun _ => true) sampleManager "nope" =
      (false, sampleManager, []) ∧
    (delete_session (fun _ => true) sampleManager "s1").1 = true ∧
    regGet (delete_session (fun _ => true)
      sampleManager "s1").2.1.sessions "s1" = none ∧
    (delete_session (fun _ => true) sampleManager "s1").2.2 = [7] ∧
    delete_session (fun _ => false) sampleManager "s1" =
      delete_session (fun _ => true) sampleManager "s1" := by
  have h1 := C7_delete_best_effort sampleManager "nope" (fun _ => true)
  have h2 := C7_delete_best_effort sampleManager "s1" (fun _ => true)
  obtain ⟨ha, hb, -, hd, he⟩ := h2.2 sampleSession rfl
  exact ⟨h1.1 rfl, ha, hb, hd, he (fun _ => false)⟩

/-- The record `create_session` inserts on a successful connect. -/
def freshRecord (conn : Nat) (newId : String) (now : Int)
    (uid : Option String) : ManagedSession :=
  { connId := conn, session_id := newId, created_at := now,
    last_accessed := now, state := SessionState.ACTIVE, user_id := uid,
    sdk_session_id := "default" }

/-- C8: `create_session` is atomic with respect to connect failure: a failed
connect propagates the fault with the registry unchanged (no partial record);
a successful connect inserts, under the freshly drawn id, a record in state
ACTIVE owning the new connection, leaves every other id untouched, and grows
the registry by exactly one record. -/
theorem C8_create_atomic (m : SessionManager) (newId : String) (now : Int)
    (uid : Option String) :
    (∀ e : String, create_session m (Except.error e) newId now uid =
      (Except.error e, m)) ∧
      (∀ conn : Nat, regGet m.sessions newId = none →
        (create_session m (Except.ok conn) newId now uid).1 =
          Except.ok (freshRecord conn newId now uid) ∧
          regGet (create_session m (Except.ok conn) newId now uid).2.sessions
            newId = some (freshRecord conn newId now uid) ∧
          (∀ id2, id2 ≠ newId →
            regGet (create_session m (Except.ok conn) newId now
              uid).2.sessions id2 = regGet m.sessions id2) ∧
          (create_session m (Except.ok conn) newId now
            uid).2.sessions.length = m.sessions.length + 1) := by
  refine ⟨fun e => rfl, fun conn hfresh => ⟨rfl, ?_, ?_, ?_⟩⟩
  · exact regGet_set_self m.sessions newId _
  · intro id2 h2
    exact regGet_set_other m.sessions newId id2 _ h2
  · exact regSet_length_of_fresh m.sessions newId _ hfresh

/-- Witness for C8: creating against an empty registry with a failing connect
leaves it empty; a successful connect inserts exactly one ACTIVE record. -/
theorem C8_create_atomic_witness :
    create_session ⟨[], 100⟩ (Except.error "no upstream") "s1" 5 none =
      (Except.error "no upstream", ⟨[], 100⟩) ∧
    regGet (create_session ⟨[], 100⟩ (Except.ok 3) "s1" 5
        none).2.sessions "s1" = some (freshRecord 3 "s1" 5 none) ∧
    (create_session ⟨[], 100⟩ (Except.ok 3) "s1" 5
        none).2.sessions.length = 1 := by
  have h := C8_create_atomic ⟨[], 100⟩ "s1" 5 none
  obtain ⟨h1, h2, -, h4⟩ := h.2 3 rfl
  exact ⟨h.1 "no upstream", h2, h4⟩

/-- Environment of one turn: the wall clock, the uuid draw for a new session,
the outcomes of the upstream connect / reconnect / query calls, and the
upstream message sequence. -/
structure TurnEnv where
  now : Int
  newId : String
  connectResult : Except String Nat
  reconnectResult : Except String Nat
  queryExc : Option String
  msgs : List SDKMessage

/-- Apply, in order, the session states `_process_response` sets as side
effects. With the session present `set_session_state` never fails; the error
arm is unreachable in the traces built here. -/
def applyStates (m : SessionManager) (sid : String) (now : Int) :
    List SessionState → SessionManager
  | [] => m
  | st :: rest =>
      match set_session_state m sid st now with
      | Except.ok m' => applyStates m' sid now rest
      | Except.error _ => applyStates m sid now rest

/-- The in-place `session.sdk_session_id = message.session_id` mutation. -/
def setSdkSession (m : SessionManager) (sid : String) (sdk : String) :
    SessionManager :=
  match regGet m.sessions sid with
  | none => m
  | some s =>
      let r2 := regSet m.sessions sid ({ s with sdk_session_id := sdk })
      { m with sessions := r2 }

/-- The common tail of `stream_response`/`respond_to_prompt`: set the session
STREAMING, run the query inside the try block; an exception there is caught,
the session is moved to ERROR and a single error event carrying the failure
text and the session id is yielded; otherwise the upstream messages are
processed, their state side effects applied, and the new sdk session id
stored. Returns (events, escaping exception, manager, disconnects). -/
def runTurn (m : SessionManager) (env : TurnEnv) (s : ManagedSession)
    (disc : List Nat) :
    List StreamEvent × Option String × SessionManager × List Nat :=
  match set_session_state m s.session_id SessionState.STREAMING env.now with
  | Except.error e => ([], some e, m, disc)
  | Except.ok m1 =>
      match env.queryExc with
      | some e =>
          let m2 :=
            match set_session_state m1 s.session_id SessionState.ERROR
              env.now with
            | Except.ok m2 => m2
            | Except.error _ => m1
          ([{ type := "error", text := some e, is_error := true,
              session_id := some s.session_id }], none, m2, disc)
      | none =>
          let pr := process_response s.session_id s.sdk_session_id [] env.msgs
          let m2 := applyStates m1 s.session_id env.now pr.2.2.1
          let m3 := setSdkSession m2 s.session_id pr.2.2.2
          (pr.1, none, m3, disc)

/-- The new-session arm of `stream_response`: create the session (a connect
failure escapes as an exception with no record inserted) and run the turn. -/
def newTurn (m1 : SessionManager) (env : TurnEnv) (disc : List Nat) :
    List StreamEvent × Option String × SessionManager × List Nat :=
  match create_session m1 env.connectResult env.newId env.now none with
  | (Except.error e, m2) => ([], some e, m2, disc)
  | (Except.ok s, m2) => runTurn m2 env s disc

/-- The continuing-session arm of `stream_response`: when a prior turn stored
a resume token (`sdk_session_id` is not the default sentinel), run the
reconnection protocol (disconnect, reopen with resume) before the try block —
a failure there escapes as an exception with no state change and no event —
then run the turn. -/
def continueTurn (m1 : SessionManager) (env : TurnEnv) (s : ManagedSession)
    (disc : List Nat) :
    List StreamEvent × Option String × SessionManager × List Nat :=
  if s.sdk_session_id ≠ "default" then
    match env.reconnectResult with
    | Except.error e => ([], some e, m1, disc ++ [s.connId])
    | Except.ok conn2 =>
        let s2 := { s with connId := conn2 }
        let r2 := regSet m1.sessions s.session_id s2
        let m2 := { m1 with sessions := r2 }
        runTurn m2 env s2 (disc ++ [s.connId])
  else runTurn m1 env s disc

/-- `AgentManager.stream_response` from client.py. Resolving/creating the
session and the reconnection protocol run before the try block: a failure
there escapes the generator as an exception (second component) without any
state change or error event. -/
def stream_response (m : SessionManager) (env : TurnEnv)
    (session_id : Option String) :
    List StreamEvent × Option String × SessionManager × List Nat :=
  let g : Option ManagedSession × SessionManager × List Nat :=
    if truthyS session_id then get_session m (session_id.getD "") env.now
    else (none, m, [])
  match g.1 with
  | none => newTurn g.2.1 env g.2.2
  | some s => continueTurn g.2.1 env s g.2.2

/-- Result of `AgentManager.respond_to_prompt`: either the
`SessionNotFoundError` raised before streaming, or the yielded events. -/
inductive RespondToPromptResult where
  | notFound (m : SessionManager) (disc : List Nat)
  | ok (events : List StreamEvent) (m : SessionManager) (disc : List Nat)

/-- `AgentManager.respond_to_prompt` from client.py: look the session up
(raising `SessionNotFoundError` when absent or expired) and run the turn.
No check of the session's current state is performed. -/
def respond_to_prompt (m : SessionManager) (env : TurnEnv)
    (sid response : String) : RespondToPromptResult :=
  let g := get_session m sid env.now
  match g.1 with
  | none => RespondToPromptResult.notFound g.2.1 g.2.2
  | some s =>
      let r := runTurn g.2.1 env s g.2.2
      RespondToPromptResult.ok r.1 r.2.2.1 r.2.2.2

/-- The HTTP outcome of the `/respond` route: either an HTTP error raised
before the response starts, or a 200 streaming body of frames (always
followed by the `data: [DONE]` sentinel). -/
inductive RespondOutcome where
  | httpError (status : Nat) (detail : String)
  | streamBody (frames : List Frame)

/-- The `respond` route handler from chat.py: an empty session id is the only
request-boundary rejection (HTTP 400); `SessionNotFoundError` is caught
inside the streaming generator and rendered as an in-band error frame over a
successful response. -/
def respond (m : SessionManager) (env : TurnEnv)
    (session_id response : String) :
    RespondOutcome × SessionManager × List Nat :=
  if session_id = "" then
    (RespondOutcome.httpError 400 "Session ID is required", m, [])
  else
    match respond_to_prompt m env session_id response with
    | RespondToPromptResult.notFound m' disc =>
        (RespondOutcome.streamBody
          (streamVercelFrames [] (some "Session not found or expired")).1,
          m', disc)
    | RespondToPromptResult.ok events m' disc =>
        (RespondOutcome.streamBody (streamVercelFrames events none).1,
          m', disc)

/-- The chat route pipeline: `stream_response` driven through
`stream_agent_response_vercel` (an escaping exception becomes one translated
error frame). -/
def chatPipeline (m : SessionManager) (env : TurnEnv)
    (session_id : Option String) :
    List Frame × SessionManager × List Nat :=
  let r := stream_response m env session_id
  ((streamVercelFrames r.1 r.2.1).1, r.2.2.1, r.2.2.2)

lemma streamVercelFrames_error_only (msg : String) (hmsg : msg ≠ "") :
    (streamVercelFrames [] (some msg)).1 = [Frame.error msg] := by
  simp [streamVercelFrames, convertList, convert_to_vercel_events,
    captureSession, closeOpenText, truthyS, hmsg]

/-- C5 (amended): when the reconnection protocol of a continuation turn fails,
the failure escapes the generator before the try block: the route layer then
emits exactly one error frame carrying the failure detail, but the session's
state is left exactly as it was (only `last_accessed` is refreshed by the
lookup) — it is not moved to ERROR — and the error frame does not carry the
session id. -/
theorem C5_reconnect_failure_amended (m : SessionManager) (env : TurnEnv)
    (sid msg : String) (s : ManagedSession)
    (hsid : sid ≠ "") (hfound : regGet m.sessions sid = some s)
    (hlive : ¬(env.now - s.last_accessed > m.ttl_seconds))
    (hresume : s.sdk_session_id ≠ "default")
    (hrec : env.reconnectResult = Except.error msg) (hmsg : msg ≠ "") :
    (chatPipeline m env (some sid)).1 = [Frame.error msg] ∧
      regGet (chatPipeline m env (some sid)).2.1.sessions sid =
        some (s.touch env.now) ∧
      (s.touch env.now).state = s.state := by
  have hg : get_session m sid env.now =
      (some (s.touch env.now),
        { m with sessions := regSet m.sessions sid (s.touch env.now) }, []) := by
    simp [get_session, hfound, ManagedSession.is_expired, hlive]
  have htch : (s.touch env.now).sdk_session_id = s.sdk_session_id := rfl
  have htch2 : (s.touch env.now).connId = s.connId := rfl
  have hrun : stream_response m env (some sid) =
      ([], some msg,
        { m with sessions := regSet m.sessions sid (s.touch env.now) },
        [s.connId]) := by
    simp [stream_response, continueTurn, truthyS, hsid, hg, htch, htch2,
      hresume, hrec]
  refine ⟨?_, ?_, rfl⟩
  · show (streamVercelFrames (stream_response m env (some sid)).1
      (stream_response m env (some sid)).2.1).1 = _
    rw [hrun]
    exact streamVercelFrames_error_only msg hmsg
  · show regGet (stream_response m env (some sid)).2.2.1.sessions sid = _
    rw [hrun]
    exact regGet_set_self m.sessions sid (s.touch env.now)

/-- A continuing session with a prior turn (resume token captured). -/
def resumableSession : ManagedSession :=
  { connId := 7, session_id := "s1", created_at := 0, last_accessed := 0,
    state := SessionState.ACTIVE, sdk_session_id := "x" }

/-- A manager holding only `resumableSession`. -/
def resumableManager : SessionManager :=
  { sessions := [("s1", resumableSession)], ttl_seconds := 100 }

/-- An environment whose reconnection fails with detail boom. -/
def reconnectFailEnv : TurnEnv :=
  { now := 10, newId := "n1", connectResult := Except.ok 9,
    reconnectResult := Except.error "boom", queryExc := none, msgs := [] }

/-- Witness for C5 (amended): the concrete failed reconnection yields exactly
the one error frame and leaves the session state untouched. -/
theorem C5_reconnect_failure_amended_witness :
    (chatPipeline resumableManager reconnectFailEnv (some "s1")).1 =
        [Frame.error "boom"] ∧
      regGet (chatPipeline resumableManager reconnectFailEnv
          (some "s1")).2.1.sessions "s1" =
        some (resumableSession.touch 10) ∧
      (resumableSession.touch 10).state = resumableSession.state := by
  exact C5_reconnect_failure_amended resumableManager reconnectFailEnv
    "s1" "boom" resumableSession (by decide) rfl (by decide) (by decide)
    rfl (by decide)

/-- C5 as stated is false: after the failed reconnection the session's state
is still ACTIVE, not ERROR (the reconnection runs outside the try block that
performs the ERROR transition), and the single emitted error frame carries
only the failure detail, with no session id field. -/
theorem C5_counterexample :
    (chatPipeline resumableManager reconnectFailEnv (some "s1")).1 =
        [Frame.error "boom"] ∧
      (regGet (chatPipeline resumableManager reconnectFailEnv
          (some "s1")).2.1.sessions "s1").map ManagedSession.state =
        some SessionState.ACTIVE := by
  exact ⟨rfl, rfl⟩

/-- C4 (amended): the only request-boundary rejection of the `/respond`
endpoint is the empty session id (HTTP 400). An unknown or expired session id
is not rejected before streaming: the handler answers with a successful
streaming body containing a single in-band error frame. No WAITING_INPUT
check exists: whatever state the session is in, the answer is accepted and
streamed. -/
theorem C4_boundary_amended (m : SessionManager) (env : TurnEnv)
    (sid response : String) :
    (sid = "" → (respond m env sid response).1 =
      RespondOutcome.httpError 400 "Session ID is required") ∧
      (sid ≠ "" → (get_session m sid env.now).1 = none →
        (respond m env sid response).1 =
          RespondOutcome.streamBody
            [Frame.error "Session not found or expired"]) ∧
      (sid ≠ "" → ∀ s, (get_session m sid env.now).1 = some s →
        ∃ frames, (respond m env sid response).1 =
          RespondOutcome.streamBody frames) := by
  refine ⟨fun h => by simp [respond, h], fun hsid hnone => ?_, fun hsid s hs => ?_⟩
  · have hfr := streamVercelFrames_error_only "Session not found or expired"
      (by decide)
    simp [respond, hsid, respond_to_prompt, hnone, hfr]
  · refine ⟨(streamVercelFrames (runTurn (get_session m sid env.now).2.1 env s
      (get_session m sid env.now).2.2).1 none).1, ?_⟩
    simp [respond, hsid, respond_to_prompt, hs]

/-- A session sitting in ACTIVE state (not WAITING_INPUT). -/
def activeSession : ManagedSession :=
  { connId := 7, session_id := "s2", created_at := 0, last_accessed := 0,
    state := SessionState.ACTIVE }

/-- A manager holding only `activeSession`. -/
def activeManager : SessionManager :=
  { sessions := [("s2", activeSession)], ttl_seconds := 100 }

/-- An environment for a quiet turn: everything succeeds, no messages. -/
def quietEnv : TurnEnv :=
  { now := 10, newId := "n1", connectResult := Except.ok 9,
    reconnectResult := Except.ok 8, queryExc := none, msgs := [] }

/-- Witness for C4 (amended): empty id gives 400; unknown id gives the
streamed error frame; an ACTIVE (non-WAITING_INPUT) session is accepted. -/
theorem C4_boundary_amended_witness :
    (respond activeManager quietEnv "" "yes").1 =
        RespondOutcome.httpError 400 "Session ID is required" ∧
      (respond ⟨[], 100⟩ quietEnv "s1" "yes").1 =
        RespondOutcome.streamBody
          [Frame.error "Session not found or expired"] ∧
      ∃ frames, (respond activeManager quietEnv "s2" "yes").1 =
        RespondOutcome.streamBody frames := by
  refine ⟨(C4_boundary_amended activeManager quietEnv "" "yes").1 rfl,
    (C4_boundary_amended ⟨[], 100⟩ quietEnv "s1" "yes").2.1 (by decide) rfl,
    (C4_boundary_amended activeManager quietEnv "s2" "yes").2.2 (by decide)
      (activeSession.touch 10) rfl⟩

/-- C4 as stated is false: an unknown session id is answered with a 200
streaming body carrying an in-band error frame (not a client-error status
before streaming), and an answer submitted to a session in ACTIVE state — not
WAITING_INPUT — is accepted and moves the session to STREAMING instead of
being rejected. -/
theorem C4_counterexample :
    (respond ⟨[], 100⟩ quietEnv "s1" "yes").1 =
        RespondOutcome.streamBody
          [Frame.error "Session not found or expired"] ∧
      (respond activeManager quietEnv "s2" "yes").1 =
        RespondOutcome.streamBody [] ∧
      (regGet (respond activeManager quietEnv "s2"
          "yes").2.1.sessions "s2").map ManagedSession.state =
        some SessionState.STREAMING := by
  exact ⟨rfl, rfl, rfl⟩

/-- One externally triggered operation of the system: a chat turn, an answer
to an interactive question, an explicit deletion, a reaper sweep, or the
shutdown drain. -/
inductive SysOp where
  | chatOp (env : TurnEnv) (session_id : Option String)
  | respondOp (env : TurnEnv) (sid response : String)
  | deleteOp (id : String)
  | sweepOp (now : Int)
  | drainOp

/-- The manager state after one system operation. -/
def applyOp (m : SessionManager) : SysOp → SessionManager
  | SysOp.chatOp env sid => (stream_response m env sid).2.2.1
  | SysOp.respondOp env sid response =>
      match respond_to_prompt m env sid response with
      | RespondToPromptResult.notFound m' _ => m'
      | RespondToPromptResult.ok _ m' _ => m'
  | SysOp.deleteOp id => (delete_session (fun _ => false) m id).2.1
  | SysOp.sweepOp now => (cleanup_expired m now).2.1
  | SysOp.drainOp => (cleanup_all m).2.1

/-- The manager state after a sequence of system operations. -/
def applyOps (m : SessionManager) : List SysOp → SessionManager
  | [] => m
  | op :: rest => applyOps (applyOp m op) rest

/-- Every record of the registry is in a state other than COMPLETED. -/
def noCompleted (r : List (String × ManagedSession)) : Prop :=
  ∀ kv ∈ r, kv.2.state ≠ SessionState.COMPLETED

lemma regGet_mem (r : List (String × ManagedSession)) (id : String)
    (s : ManagedSession) (h : regGet r id = some s) : (id, s) ∈ r := by
  induction r with
  | nil => simp [regGet] at h
  | cons kv rest ih =>
      simp only [regGet] at h
      by_cases hk : kv.1 = id
      · rw [if_pos hk] at h
        obtain ⟨k, v⟩ := kv
        simp only at hk
        subst hk
        obtain rfl := Option.some_inj.mp h
        exact List.mem_cons_self _ _
      · rw [if_neg hk] at h
        exact List.mem_cons_of_mem _ (ih h)

lemma mem_regSet (r : List (String × ManagedSession)) (id : String)
    (s : ManagedSession) (kv : String × ManagedSession)
    (h : kv ∈ regSet r id s) : kv ∈ r ∨ kv = (id, s) := by
  induction r with
  | nil =>
      simp [regSet] at h
      exact Or.inr h
  | cons kv2 rest ih =>
      simp only [regSet] at h
      by_cases hk : kv2.1 = id
      · rw [if_pos hk] at h
        rcases List.mem_cons.mp h with h1 | h1
        · exact Or.inr h1
        · exact Or.inl (List.mem_cons_of_mem _ h1)
      · rw [if_neg hk] at h
        rcases List.mem_cons.mp h with h1 | h1
        · exact Or.inl (h1 ▸ List.mem_cons_self _ _)
        · rcases ih h1 with h2 | h2
          · exact Or.inl (List.mem_cons_of_mem _ h2)
          · exact Or.inr h2

lemma noCompleted_regSet (r : List (String × ManagedSession)) (id : String)
    (s : ManagedSession) (hr : noCompleted r)
    (hs : s.state ≠ SessionState.COMPLETED) :
    noCompleted (regSet r id s) := by
  intro kv hkv
  rcases mem_regSet r id s kv hkv with h | h
  · exact hr kv h
  · rw [h]
    exact hs

lemma noCompleted_regRemove (r : List (String × ManagedSession))
    (id : String) (hr : noCompleted r) : noCompleted (regRemove r id) := by
  intro kv hkv
  exact hr kv (List.mem_filter.mp hkv).1

lemma noCompleted_filter (r : List (String × ManagedSession))
    (p : String × ManagedSession → Bool) (hr : noCompleted r) :
    noCompleted (r.filter p) := by
  intro kv hkv
  exact hr kv (List.mem_filter.mp hkv).1

lemma noCompleted_get_session (m : SessionManager) (id : String) (now : Int)
    (h : noCompleted m.sessions) :
    noCompleted (get_session m id now).2.1.sessions := by
  unfold get_session
  cases hg : regGet m.sessions id with
  | none => exact h
  | some s =>
      by_cases he : s.is_expired m.ttl_seconds now = true
      · simp only [he, if_true]
        exact noCompleted_regRemove m.sessions id h
      · simp only [he, if_false]
        have hs := h (id, s) (regGet_mem m.sessions id s hg)
        exact noCompleted_regSet m.sessions id (s.touch now) h hs

lemma get_session_some (m : SessionManager) (id : String) (now : Int)
    (s : ManagedSession) (h : (get_session m id now).1 = some s) :
    regGet (get_session m id now).2.1.sessions id = some s := by
  cases hg : regGet m.sessions id with
  | none => simp [get_session, hg] at h
  | some s0 =>
      by_cases he : s0.is_expired m.ttl_seconds now = true
      · simp [get_session, hg, he] at h
      · have hrun : get_session m id now =
            (some (s0.touch now),
              { m with sessions := regSet m.sessions id (s0.touch now) },
              []) := by
          simp [get_session, hg, he]
        rw [hrun] at h ⊢
        obtain rfl := Option.some_inj.mp h
        exact regGet_set_self m.sessions id (s0.touch now)

lemma noCompleted_set_session_state (m m2 : SessionManager) (id : String)
    (st : SessionState) (now : Int) (h : noCompleted m.sessions)
    (hst : st ≠ SessionState.COMPLETED)
    (hok : set_session_state m id st now = Except.ok m2) :
    noCompleted m2.sessions := by
  unfold set_session_state at hok
  cases hg : regGet m.sessions id with
  | none => rw [hg] at hok; exact absurd hok (by simp)
  | some s =>
      rw [hg] at hok
      have hm2 := (Except.ok.inj hok).symm
      rw [hm2]
      exact noCompleted_regSet m.sessions id _ h hst

lemma noCompleted_applyStates (sts : List SessionState) :
    ∀ (m : SessionManager) (id : String) (now : Int),
      noCompleted m.sessions →
      (∀ st ∈ sts, st ≠ SessionState.COMPLETED) →
      noCompleted (applyStates m id now sts).sessions := by
  induction sts with
  | nil => intro m id now h _; exact h
  | cons st rest ih =>
      intro m id now h hsts
      simp only [applyStates]
      cases hss : set_session_state m id st now with
      | error e =>
          exact ih m id now h (fun st2 h2 => hsts st2 (List.mem_cons_of_mem _ h2))
      | ok m2 =>
          have h2 := noCompleted_set_session_state m m2 id st now h
            (hsts st (List.mem_cons_self _ _)) hss
          exact ih m2 id now h2
            (fun st2 hst2 => hsts st2 (List.mem_cons_of_mem _ hst2))

lemma noCompleted_setSdkSession (m : SessionManager) (id sdk : String)
    (h : noCompleted m.sessions) :
    noCompleted (setSdkSession m id sdk).sessions := by
  unfold setSdkSession
  cases hg : regGet m.sessions id with
  | none => exact h
  | some s =>
      have hs := h (id, s) (regGet_mem m.sessions id s hg)
      exact noCompleted_regSet m.sessions id _ h hs

lemma processAssistant_states_wait (sid : String) (bs : List ContentBlock) :
    ∀ ask, ∀ st ∈ (processAssistantBlocks sid ask bs).2.2,
      st = SessionState.WAITING_INPUT := by
  induction bs with
  | nil => intro ask st h; simp [processAssistantBlocks] at h
  | cons b rest ih =>
      intro ask st h
      cases b with
      | textBlock t =>
          exact ih ask st (by simpa [processAssistantBlocks] using h)
      | toolUseBlock id name input =>
          by_cases hn : name = "AskUserQuestion"
          · simp only [processAssistantBlocks, hn, if_pos] at h
            rcases List.mem_cons.mp h with h1 | h1
            · exact h1
            · exact ih (ask ++ [id]) st h1
          · simp only [processAssistantBlocks, hn, if_neg,
              not_false_eq_true] at h
            exact ih ask st h
      | toolResultBlock id content iserr =>
          exact ih ask st (by simpa [processAssistantBlocks] using h)

lemma process_response_states_ok (sid : String) (msgs : List SDKMessage) :
    ∀ sdk ask, ∀ st ∈ (process_response sid sdk ask msgs).2.2.1,
      st ≠ SessionState.COMPLETED := by
  induction msgs with
  | nil => intro sdk ask st h; simp [process_response] at h
  | cons msg rest ih =>
      intro sdk ask st h
      cases msg with
      | assistantMessage bs =>
          simp only [process_response, List.mem_append] at h
          rcases h with h1 | h1
          · rw [processAssistant_states_wait sid bs ask st h1]
            decide
          · exact ih sdk _ st h1
      | userMessage bs =>
          simp only [process_response] at h
          exact ih sdk ask st h
      | resultMessage msid cost iserr =>
          simp only [process_response] at h
          rcases List.mem_cons.mp h with h1 | h1
          · rw [h1]
            unfold doneFinalState
            split <;> decide
          · exact ih _ ask st h1

lemma noCompleted_runTurn (m : SessionManager) (env : TurnEnv)
    (s : ManagedSession) (disc : List Nat) (h : noCompleted m.sessions) :
    noCompleted (runTurn m env s disc).2.2.1.sessions := by
  cases hss : set_session_state m s.session_id SessionState.STREAMING
    env.now with
  | error e =>
      have hrun : (runTurn m env s disc).2.2.1 = m := by
        simp [runTurn, hss]
      rw [hrun]
      exact h
  | ok m1 =>
      have h1 := noCompleted_set_session_state m m1 s.session_id _ env.now h
        (by decide) hss
      cases hq : env.queryExc with
      | some e =>
          cases hse : set_session_state m1 s.session_id SessionState.ERROR
            env.now with
          | error e2 =>
              have hrun : (runTurn m env s disc).2.2.1 = m1 := by
                simp [runTurn, hss, hq, hse]
              rw [hrun]
              exact h1
          | ok m2 =>
              have hrun : (runTurn m env s disc).2.2.1 = m2 := by
                simp [runTurn, hss, hq, hse]
              rw [hrun]
              exact noCompleted_set_session_state m1 m2 s.session_id _
                env.now h1 (by decide) hse
      | none =>
          have hrun : (runTurn m env s disc).2.2.1 =
              setSdkSession (applyStates m1 s.session_id env.now
                  (process_response s.session_id s.sdk_session_id []
                    env.msgs).2.2.1)
                s.session_id
                (process_response s.session_id s.sdk_session_id []
                  env.msgs).2.2.2 := by
            simp [runTurn, hss, hq]
          rw [hrun]
          exact noCompleted_setSdkSession _ s.session_id _
            (noCompleted_applyStates _ m1 s.session_id env.now h1
              (process_response_states_ok s.session_id env.msgs
                s.sdk_session_id []))

lemma noCompleted_newTurn (m1 : SessionManager) (env : TurnEnv)
    (disc : List Nat) (h : noCompleted m1.sessions) :
    noCompleted (newTurn m1 env disc).2.2.1.sessions := by
  unfold newTurn
  cases hcr : env.connectResult with
  | error e => exact h
  | ok conn =>
      exact noCompleted_runTurn _ env _ disc
        (noCompleted_regSet _ env.newId _ h (by simp))

lemma noCompleted_continueTurn (m1 : SessionManager) (env : TurnEnv)
    (s : ManagedSession) (disc : List Nat) (h : noCompleted m1.sessions)
    (hs : s.state ≠ SessionState.COMPLETED) :
    noCompleted (continueTurn m1 env s disc).2.2.1.sessions := by
  unfold continueTurn
  by_cases hres : s.sdk_session_id ≠ "default"
  · rw [if_pos hres]
    cases hrr : env.reconnectResult with
    | error e => exact h
    | ok conn2 =>
        exact noCompleted_runTurn _ env _ _
          (noCompleted_regSet _ s.session_id _ h hs)
  · rw [if_neg hres]
    exact noCompleted_runTurn _ env _ _ h

lemma noCompleted_stream_response (m : SessionManager) (env : TurnEnv)
    (sid : Option String) (h : noCompleted m.sessions) :
    noCompleted (stream_response m env sid).2.2.1.sessions := by
  simp only [stream_response]
  set g := (if truthyS sid = true then get_session m (sid.getD "") env.now
    else (none, m, [])) with hgdef
  have hg : noCompleted g.2.1.sessions := by
    rw [hgdef]
    by_cases ht : truthyS sid = true
    · rw [if_pos ht]
      exact noCompleted_get_session m _ env.now h
    · rw [if_neg ht]
      exact h
  have hg1mem : ∀ s, g.1 = some s →
      regGet g.2.1.sessions (sid.getD "") = some s := by
    intro s hs
    rw [hgdef] at hs ⊢
    by_cases ht : truthyS sid = true
    · rw [if_pos ht] at hs ⊢
      exact get_session_some m _ env.now s hs
    · rw [if_neg ht] at hs
      simp at hs
  cases hg1 : g.1 with
  | none => exact noCompleted_newTurn g.2.1 env g.2.2 hg
  | some s =>
      have hsok : s.state ≠ SessionState.COMPLETED :=
        hg ((sid.getD ""), s)
          (regGet_mem g.2.1.sessions (sid.getD "") s (hg1mem s hg1))
      exact noCompleted_continueTurn g.2.1 env s g.2.2 hg hsok

lemma noCompleted_respond_to_prompt (m : SessionManager) (env : TurnEnv)
    (sid response : String) (h : noCompleted m.sessions) :
    noCompleted (applyOp m (SysOp.respondOp env sid response)).sessions := by
  simp only [applyOp, respond_to_prompt]
  cases hg1 : (get_session m sid env.now).1 with
  | none => exact noCompleted_get_session m sid env.now h
  | some s =>
      exact noCompleted_runTurn _ env _ _
        (noCompleted_get_session m sid env.now h)

lemma noCompleted_applyOp (m : SessionManager) (op : SysOp)
    (h : noCompleted m.sessions) : noCompleted (applyOp m op).sessions := by
  cases op with
  | chatOp env sid => exact noCompleted_stream_response m env sid h
  | respondOp env sid response =>
      exact noCompleted_respond_to_prompt m env sid response h
  | deleteOp id =>
      simp only [applyOp, delete_session]
      cases hg : regGet m.sessions id with
      | none => exact h
      | some s => exact noCompleted_regRemove m.sessions id h
  | sweepOp now =>
      simp only [applyOp, cleanup_expired]
      exact noCompleted_filter m.sessions _ h
  | drainOp =>
      intro kv hkv
      simp [applyOp, cleanup_all] at hkv

lemma noCompleted_applyOps (ops : List SysOp) :
    ∀ (m : SessionManager), noCompleted m.sessions →
      noCompleted (applyOps m ops).sessions := by
  induction ops with
  | nil => intro m h; exact h
  | cons op rest ih =>
      intro m h
      exact ih (applyOp m op) (noCompleted_applyOp m op h)

/-- C10: starting from the empty registry, no sequence of system operations
(chat turns, interactive-question answers, deletions, reaper sweeps,
shutdown drain) ever produces a session record in the COMPLETED state: every
reachable record is ACTIVE, STREAMING, WAITING_INPUT or ERROR. In particular
the state chosen when a terminal result message is translated is ERROR when
the result carries the error flag and ACTIVE otherwise — never COMPLETED. -/
theorem C10_no_completed_state (ttl : Int) (ops : List SysOp) (id : String)
    (s : ManagedSession)
    (h : regGet (applyOps { sessions := [], ttl_seconds := ttl }
      ops).sessions id = some s) :
    (s.state = SessionState.ACTIVE ∨ s.state = SessionState.STREAMING ∨
        s.state = SessionState.WAITING_INPUT ∨
        s.state = SessionState.ERROR) ∧
      s.state ≠ SessionState.COMPLETED ∧
      (∀ b : Bool, doneFinalState b =
          (if b then SessionState.ERROR else SessionState.ACTIVE) ∧
        doneFinalState b ≠ SessionState.COMPLETED) := by
  have hinv := noCompleted_applyOps ops { sessions := [], ttl_seconds := ttl }
    (by intro kv hkv; simp at hkv)
  have hs := hinv (id, s) (regGet_mem _ _ _ h)
  refine ⟨?_, hs, fun b => ⟨rfl, by cases b <;> decide⟩⟩
  cases hst : s.state
  · exact Or.inl rfl
  · exact Or.inr (Or.inl rfl)
  · exact Or.inr (Or.inr (Or.inl rfl))
  · exact absurd hst hs
  · exact Or.inr (Or.inr (Or.inr rfl))

/-- An environment for a successful first turn ending in a successful
result message. -/
def doneEnv : TurnEnv :=
  { now := 1, newId := "n1", connectResult := Except.ok 3,
    reconnectResult := Except.ok 4, queryExc := none,
    msgs := [SDKMessage.resultMessage "sdk1" (some ((1 : Rat)/100)) false] }

/-- Witness for C10: after one successful chat turn the created session is in
state ACTIVE (the Done translation chose ACTIVE, not COMPLETED). -/
theorem C10_no_completed_state_witness :
    ∃ s, regGet (applyOps { sessions := [], ttl_seconds := 100 }
        [SysOp.chatOp doneEnv none]).sessions "n1" = some s ∧
      (s.state = SessionState.ACTIVE ∨ s.state = SessionState.STREAMING ∨
        s.state = SessionState.WAITING_INPUT ∨
        s.state = SessionState.ERROR) ∧
      s.state ≠ SessionState.COMPLETED := by
  refine ⟨_, rfl, ?_⟩
  have h := C10_no_completed_state 100 [SysOp.chatOp doneEnv none] "n1" _ rfl
  exact ⟨h.1, h.2.1⟩

/-- Modelled from the spec: the compact line-oriented wire encoding of §6
(`<code>:<json-value>` per line) has no implementation under src/ — only the
typed-event encoding is implemented — so its frame alphabet is taken from the
spec: `0` text delta, `2` side-channel data, `3` error, `9` tool call, `a`
tool result, `b` tool-call-stream-start, `d` finish-message, `e`
finish-step. -/
inductive LineFrame where
  | frame0 (delta : String)
  | frame2 (session_id : Option String) (cost : Option Rat)
  | frame3 (errorText : String)
  | frame9 (toolCallId : Option String) (toolName : Option String)
      (args : List (String × JsonV))
  | frameA (toolCallId : Option String) (result : Option String)
      (isError : Bool)
  | frameB (toolCallId : Option String) (toolName : Option String)
  | frameD
  | frameE

/-- Modelled from the spec: render one frame of the typed-event state machine
into the line-oriented encoding. A text delta becomes a `0` frame (the open
and close frames have no line-coded counterpart); tool frames become `b`, `9`
and `a`; a finish becomes `e` then `d`, and a `2` data frame carrying
`session_id` and `cost` follows `d` only when a session id is known; an error
becomes a `3` frame. -/
def lineEncodeFrame : Frame → List LineFrame
  | Frame.textStart _ => []
  | Frame.textDelta _ delta => [LineFrame.frame0 delta]
  | Frame.textEnd _ => []
  | Frame.toolInputStart id name => [LineFrame.frameB id name]
  | Frame.toolInputAvailable id name input => [LineFrame.frame9 id name input]
  | Frame.toolOutputAvailable id res isErr => [LineFrame.frameA id res isErr]
  | Frame.finish sid cost =>
      [LineFrame.frameE, LineFrame.frameD] ++
        (if truthyS sid then [LineFrame.frame2 sid cost] else [])
  | Frame.error msg => [LineFrame.frame3 msg]

/-- Modelled from the spec: the line-coded serialization of an event
sequence, derived by rendering the frames of the same translator state
machine (`convert_to_vercel_events` driven over the sequence), not by a
second implementation. -/
def lineEncode (events : List StreamEvent) : List LineFrame :=
  ((convertList {} events).1).flatMap lineEncodeFrame

def LineFrame.is0 : LineFrame → Bool
  | LineFrame.frame0 _ => true
  | _ => false

def LineFrame.is2 : LineFrame → Bool
  | LineFrame.frame2 _ _ => true
  | _ => false

def LineFrame.isD : LineFrame → Bool
  | LineFrame.frameD => true
  | _ => false

def LineFrame.isE : LineFrame → Bool
  | LineFrame.frameE => true
  | _ => false

/-- The C9 input sequence: two text events and a Done carrying the session id
s1 and the cost 0.001 (= 1/1000). -/
def c9Input : List StreamEvent :=
  [{ type := "text", text := some "Hello " },
   { type := "text", text := some "world!" },
   { type := "done", session_id := some "s1", cost := some ((1 : Rat)/1000) }]

/-- C9: the line-coded output for the input
Text Hello , Text world!, Done(sessionId s1, cost 0.001) is exactly two `0`
frames, one `e` frame and one `d` frame in that relative order, and one `2`
frame whose payload carries session_id s1 and cost 0.001; the encoding is
derived from the same translator state machine as the typed-event
encoding. -/
theorem C9_line_encoding :
    lineEncode c9Input =
      [LineFrame.frame0 "Hello ", LineFrame.frame0 "world!",
       LineFrame.frameE, LineFrame.frameD,
       LineFrame.frame2 (some "s1") (some ((1 : Rat)/1000))] ∧
      (lineEncode c9Input).countP LineFrame.is0 = 2 ∧
      (lineEncode c9Input).countP LineFrame.isE = 1 ∧
      (lineEncode c9Input).countP LineFrame.isD = 1 ∧
      (lineEncode c9Input).countP LineFrame.is2 = 1 := by
  exact ⟨rfl, rfl, rfl, rfl, rfl⟩

end AiChat
